import Mathlib

/-
Verification of the ASCII-art conversion engine of this repository.

The repository contains two variants of the converter:
  - src/public/conv2ascii.js   (embedded below in namespace conv2ascii)
  - src/unnamed/part_008        (embedded below in namespace part008)

JavaScript numbers are modelled by the rationals.  Math.round is the
Mathlib round function (ties toward positive infinity, matching
JavaScript).  Math.floor is the integer floor.  The JavaScript remainder
operator, which keeps the sign of the dividend, is modelled by jsMod.
Assignment of a number to a Uint8ClampedArray slot clamps to the range
0..255 and rounds ties to even; that store is modelled by toByte.
-/

/-- Model of one RGBA pixel of an ImageData buffer: four 8-bit channels. -/
structure Pixel where
  r : ℕ
  g : ℕ
  b : ℕ
  a : ℕ
deriving Repr, DecidableEq

/-- Truncation toward zero, as used by the JavaScript Math.trunc implicit in
the remainder operator. -/
def jsTrunc (q : ℚ) : ℤ := if 0 ≤ q then ⌊q⌋ else ⌈q⌉

/-- The JavaScript remainder operator a % b (sign follows the dividend). -/
def jsMod (a b : ℚ) : ℚ := a - b * jsTrunc (a / b)

/-- Helper from both source files, keeping a value in the range 0..255:
min(255, max(0, value)). -/
def truncate (value : ℚ) : ℚ := min 255 (max 0 value)

/-- Rounding to the nearest integer with ties to even, the rounding mode a
Uint8ClampedArray store performs. -/
def roundHalfEven (q : ℚ) : ℤ :=
  if q - ⌊q⌋ < 1/2 then ⌊q⌋
  else if 1/2 < q - ⌊q⌋ then ⌊q⌋ + 1
  else if ⌊q⌋ % 2 = 0 then ⌊q⌋ else ⌊q⌋ + 1

/-- A store of a number into a Uint8ClampedArray slot: clamp to 0..255,
then round with ties to even. -/
def toByte (q : ℚ) : ℕ := (roundHalfEven (truncate q)).toNat

/-- The standard glyph ramp of CHAR_SETS (identical in both files). -/
def standardChars : List Char := ['█', '▓', '▒', '░']

/-- The extended glyph ramp of CHAR_SETS. -/
def extendedChars : List Char := ['@', '%', '#', '*', '+', '=', '-', ':', '.', ' ']

/-- The blocks glyph ramp of CHAR_SETS. -/
def blocksChars : List Char := ['█', '▓', '▒', '░', '▄', '▀', '■', '□', '▪', '▫']

/-- The simple glyph ramp of CHAR_SETS. -/
def simpleChars : List Char := ['#', '.', ' ']

/-- Lookup in the CHAR_SETS object (identical in both files). -/
def CHAR_SETS (name : String) : Option (List Char) :=
  if name = "standard" then some standardChars
  else if name = "extended" then some extendedChars
  else if name = "blocks" then some blocksChars
  else if name = "simple" then some simpleChars
  else none

/-- The settings record after merging caller options over the defaults
object; default field values are the entries of the defaults object.  The
charSetType field is read only by the part_008 variant (absent fields of a
JavaScript object read as undefined, modelled by the empty string). -/
structure Settings where
  width : ℚ := 100
  height : ℚ := 0
  brightness : ℚ := 100
  contrast : ℚ := 100
  saturation : ℚ := 100
  grayscale : ℚ := 0
  invert : ℚ := 0
  hue : ℚ := 0
  sepia : ℚ := 0
  colorized : Bool := false
  charSet : List Char := standardChars
  customChars : List Char := []
  charSetType : String := ""
  stretchWidth : ℚ := 100
  stretchHeight : ℚ := 100
deriving Repr, DecidableEq

/-- The defaults object. -/
def defaults : Settings := {}

/-- The hue2rgb helper, textually identical in both source files. -/
def hue2rgb (p q t0 : ℚ) : ℚ :=
  let t1 := if t0 < 0 then t0 + 1 else t0
  let t := if t1 > 1 then t1 - 1 else t1
  if t < 1/6 then p + (q - p) * 6 * t
  else if t < 1/2 then q
  else if t < 2/3 then p + (q - p) * (2/3 - t) * 6
  else p

namespace conv2ascii

/-- rgbToHsl of src/public/conv2ascii.js: h, s, l all in the range 0..1. -/
def rgbToHsl (r0 g0 b0 : ℚ) : ℚ × ℚ × ℚ :=
  let r := r0 / 255
  let g := g0 / 255
  let b := b0 / 255
  let maxc := max r (max g b)
  let minc := min r (min g b)
  let l := (maxc + minc) / 2
  if maxc = minc then (0, 0, l)
  else
    let d := maxc - minc
    let s := if l > 1/2 then d / (2 - maxc - minc) else d / (maxc + minc)
    let h := (if maxc = r then (g - b) / d + (if g < b then 6 else 0)
              else if maxc = g then (b - r) / d + 2
              else (r - g) / d + 4) / 6
    (h, s, l)

/-- hslToRgb of src/public/conv2ascii.js: returns channels in 0..255,
clamped through truncate. -/
def hslToRgb (h s l : ℚ) : ℚ × ℚ × ℚ :=
  if s = 0 then (truncate (l * 255), truncate (l * 255), truncate (l * 255))
  else
    let q := if l < 1/2 then l * (1 + s) else l + s - l * s
    let p := 2 * l - q
    (truncate (hue2rgb p q (h + 1/3) * 255),
     truncate (hue2rgb p q h * 255),
     truncate (hue2rgb p q (h - 1/3) * 255))

/-- The contrast factor computed once per call in applyImageAdjustments. -/
def contrastFactor (contrast : ℚ) : ℚ :=
  (259 * (contrast / 100 + 255)) / (255 * (259 - contrast / 100))

/-- The brightness block of the per-pixel loop of applyImageAdjustments. -/
def brightnessStep (s : Settings) (rgb : ℚ × ℚ × ℚ) : ℚ × ℚ × ℚ :=
  if s.brightness ≠ 100 then
    (truncate (rgb.1 * (s.brightness / 100)),
     truncate (rgb.2.1 * (s.brightness / 100)),
     truncate (rgb.2.2 * (s.brightness / 100)))
  else rgb

/-- The contrast block of the per-pixel loop. -/
def contrastStep (s : Settings) (rgb : ℚ × ℚ × ℚ) : ℚ × ℚ × ℚ :=
  if s.contrast ≠ 100 then
    (truncate (contrastFactor s.contrast * (rgb.1 - 128) + 128),
     truncate (contrastFactor s.contrast * (rgb.2.1 - 128) + 128),
     truncate (contrastFactor s.contrast * (rgb.2.2 - 128) + 128))
  else rgb

/-- The saturation block of the per-pixel loop. -/
def saturationStep (s : Settings) (rgb : ℚ × ℚ × ℚ) : ℚ × ℚ × ℚ :=
  if s.saturation ≠ 100 then
    let gray := 0.2989 * rgb.1 + 0.5870 * rgb.2.1 + 0.1140 * rgb.2.2
    (truncate (gray + (rgb.1 - gray) * (s.saturation / 100)),
     truncate (gray + (rgb.2.1 - gray) * (s.saturation / 100)),
     truncate (gray + (rgb.2.2 - gray) * (s.saturation / 100)))
  else rgb

/-- The grayscale block of the per-pixel loop. -/
def grayscaleStep (s : Settings) (rgb : ℚ × ℚ × ℚ) : ℚ × ℚ × ℚ :=
  if s.grayscale > 0 then
    let gray := 0.2989 * rgb.1 + 0.5870 * rgb.2.1 + 0.1140 * rgb.2.2
    (truncate (rgb.1 * (1 - s.grayscale / 100) + gray * (s.grayscale / 100)),
     truncate (rgb.2.1 * (1 - s.grayscale / 100) + gray * (s.grayscale / 100)),
     truncate (rgb.2.2 * (1 - s.grayscale / 100) + gray * (s.grayscale / 100)))
  else rgb

/-- The inversion block of the per-pixel loop. -/
def invertStep (s : Settings) (rgb : ℚ × ℚ × ℚ) : ℚ × ℚ × ℚ :=
  if s.invert > 0 then
    (truncate (rgb.1 * (1 - s.invert / 100) + (255 - rgb.1) * (s.invert / 100)),
     truncate (rgb.2.1 * (1 - s.invert / 100) + (255 - rgb.2.1) * (s.invert / 100)),
     truncate (rgb.2.2 * (1 - s.invert / 100) + (255 - rgb.2.2) * (s.invert / 100)))
  else rgb

/-- The sepia block of the per-pixel loop. -/
def sepiaStep (s : Settings) (rgb : ℚ × ℚ × ℚ) : ℚ × ℚ × ℚ :=
  if s.sepia > 0 then
    let sepiaR := 0.393 * rgb.1 + 0.769 * rgb.2.1 + 0.189 * rgb.2.2
    let sepiaG := 0.349 * rgb.1 + 0.686 * rgb.2.1 + 0.168 * rgb.2.2
    let sepiaB := 0.272 * rgb.1 + 0.534 * rgb.2.1 + 0.131 * rgb.2.2
    (truncate (rgb.1 * (1 - s.sepia / 100) + sepiaR * (s.sepia / 100)),
     truncate (rgb.2.1 * (1 - s.sepia / 100) + sepiaG * (s.sepia / 100)),
     truncate (rgb.2.2 * (1 - s.sepia / 100) + sepiaB * (s.sepia / 100)))
  else rgb

/-- The hue rotation block of the per-pixel loop. -/
def hueStep (s : Settings) (rgb : ℚ × ℚ × ℚ) : ℚ × ℚ × ℚ :=
  if s.hue ≠ 0 then
    let hsl := rgbToHsl rgb.1 rgb.2.1 rgb.2.2
    let newHue := jsMod (hsl.1 + s.hue / 360) 1
    hslToRgb newHue hsl.2.1 hsl.2.2
  else rgb

/-- The whole body of the per-pixel loop of applyImageAdjustments, in
source order: brightness, contrast, saturation, grayscale, invert, sepia,
hue rotation. -/
def adjustPixel (s : Settings) (r0 g0 b0 : ℚ) : ℚ × ℚ × ℚ :=
  let rgb1 := brightnessStep s (r0, g0, b0)
  let rgb2 := contrastStep s rgb1
  let rgb3 := saturationStep s rgb2
  let rgb4 := grayscaleStep s rgb3
  let rgb5 := invertStep s rgb4
  let rgb6 := sepiaStep s rgb5
  hueStep s rgb6

/-- The write-back of a loop iteration: pixels[i..i+2] receive the adjusted
channels through the clamped-array store, pixels[i+3] is not written. -/
def adjustStore (s : Settings) (p : Pixel) : Pixel :=
  ⟨toByte (adjustPixel s p.r p.g p.b).1,
   toByte (adjustPixel s p.r p.g p.b).2.1,
   toByte (adjustPixel s p.r p.g p.b).2.2,
   p.a⟩

/-- applyImageAdjustments of src/public/conv2ascii.js over the buffer. -/
def applyImageAdjustments (s : Settings) (pixels : List Pixel) : List Pixel :=
  pixels.map (adjustStore s)

/-- The cell luminance: Math.round(0.299 r + 0.587 g + 0.114 b). -/
def brightnessOf (p : Pixel) : ℤ :=
  round ((0.299 : ℚ) * p.r + 0.587 * p.g + 0.114 * p.b)

/-- The selected ramp index:
Math.min(chars.length - 1, Math.floor(chars.length * brightness / 256)). -/
def charIndex (chars : List Char) (brightness : ℤ) : ℤ :=
  min ((chars.length : ℤ) - 1) ⌊(chars.length : ℚ) * brightness / 256⌋

/-- The characters appended for one cell: chars[charIndex].  A JavaScript
out-of-range string index is undefined, and appending undefined to a string
appends the text undefined. -/
def cellChars (chars : List Char) (p : Pixel) : List Char :=
  let i := charIndex chars (brightnessOf p)
  if i < 0 then ("undefined").toList
  else
    match chars[i.toNat]? with
    | some c => [c]
    | none => ("undefined").toList

/-- The active glyph ramp: customChars when non-empty, else charSet. -/
def chooseChars (s : Settings) : List Char :=
  if s.customChars ≠ [] then s.customChars else s.charSet

/-- One row of the ASCII grid (without the trailing newline). -/
def asciiLine (chars : List Char) (pixels : List Pixel) (w y : ℕ) : List Char :=
  ((List.range w).map fun x => cellChars chars (pixels.getD (y * w + x) ⟨0, 0, 0, 0⟩)).flatten

/-- The full character sequence of the ASCII output: rows in order, each
followed by a newline. -/
def asciiChars (chars : List Char) (pixels : List Pixel) (w h : ℕ) : List Char :=
  ((List.range h).map fun y => asciiLine chars pixels w y ++ ['\n']).flatten

/-- The text field of the conversion result of convertToAscii, for a buffer
already resampled to w by h: adjustments applied in place, then each cell
mapped through the active ramp. -/
def convertToAsciiText (pixels : List Pixel) (w h : ℕ) (s : Settings) : String :=
  ⟨asciiChars (chooseChars s) (applyImageAdjustments s pixels) w h⟩

/-- The colorMap built by convertToAscii: when colorized, the original
(pre-adjustment) RGB of every cell; otherwise the empty array. -/
def colorMap (orig : List Pixel) (w h : ℕ) (s : Settings) :
    List (List (Option (ℕ × ℕ × ℕ))) :=
  if s.colorized then
    (List.range h).map fun y => (List.range w).map fun x =>
      some ((orig.getD (y * w + x) ⟨0, 0, 0, 0⟩).r,
            (orig.getD (y * w + x) ⟨0, 0, 0, 0⟩).g,
            (orig.getD (y * w + x) ⟨0, 0, 0, 0⟩).b)
  else []

/-- The observable data convertToAscii derives from the pixel buffer: the
text and the color map handed to createAsciiImage. -/
def convertToAscii (pixels : List Pixel) (w h : ℕ) (s : Settings) :
    String × List (List (Option (ℕ × ℕ × ℕ))) :=
  (convertToAsciiText pixels w h s, colorMap pixels w h s)

/-- The height used by convertToAscii: the given height, or, when unset
(zero), Math.round(width * (naturalHeight / naturalWidth * 0.5)). -/
def settingsHeight (s : Settings) (naturalWidth naturalHeight : ℚ) : ℚ :=
  if s.height = 0 then
    ((round (s.width * (naturalHeight / naturalWidth * 0.5)) : ℤ) : ℚ)
  else s.height

/-- effectiveWidth = Math.round(settings.width * (settings.stretchWidth / 100)). -/
def effectiveWidth (s : Settings) : ℤ :=
  round (s.width * (s.stretchWidth / 100))

/-- effectiveHeight = Math.round(height * (settings.stretchHeight / 100)). -/
def effectiveHeight (s : Settings) (naturalWidth naturalHeight : ℚ) : ℤ :=
  round (settingsHeight s naturalWidth naturalHeight * (s.stretchHeight / 100))

end conv2ascii

namespace part008

/-- rgbToHsl of src/unnamed/part_008: h in degrees 0..360, s and l as
percentages 0..100. -/
def rgbToHsl (r0 g0 b0 : ℚ) : ℚ × ℚ × ℚ :=
  let r := r0 / 255
  let g := g0 / 255
  let b := b0 / 255
  let maxc := max r (max g b)
  let minc := min r (min g b)
  let l := (maxc + minc) / 2
  if maxc = minc then (0, 0, l * 100)
  else
    let d := maxc - minc
    let s := if l > 1/2 then d / (2 - maxc - minc) else d / (maxc + minc)
    let h := (if maxc = r then (g - b) / d + (if g < b then 6 else 0)
              else if maxc = g then (b - r) / d + 2
              else (r - g) / d + 4) * 60
    (h, s * 100, l * 100)

/-- hslToRgb of src/unnamed/part_008: takes degrees and percentages,
returns Math.round-ed channels 0..255. -/
def hslToRgb (h0 s0 l0 : ℚ) : ℤ × ℤ × ℤ :=
  let s := s0 / 100
  let l := l0 / 100
  if s = 0 then
    (round (l * 255), round (l * 255), round (l * 255))
  else
    let q := if l < 1/2 then l * (1 + s) else l + s - l * s
    let p := 2 * l - q
    (round (hue2rgb p q (jsMod (h0 / 360 + 1/3) 1) * 255),
     round (hue2rgb p q (jsMod (h0 / 360) 1) * 255),
     round (hue2rgb p q (jsMod (h0 / 360 - 1/3) 1) * 255))

/-- The brightness block of the per-pixel loop: additive shift by
(brightness - 100) * 2.55, applied unconditionally. -/
def brightnessStep (s : Settings) (rgb : ℚ × ℚ × ℚ) : ℚ × ℚ × ℚ :=
  (truncate (rgb.1 + (s.brightness - 100) * 2.55),
   truncate (rgb.2.1 + (s.brightness - 100) * 2.55),
   truncate (rgb.2.2 + (s.brightness - 100) * 2.55))

/-- The contrast block of the per-pixel loop, applied unconditionally. -/
def contrastStep (s : Settings) (rgb : ℚ × ℚ × ℚ) : ℚ × ℚ × ℚ :=
  (truncate (((rgb.1 / 255 - 0.5) * (s.contrast / 100) + 0.5) * 255),
   truncate (((rgb.2.1 / 255 - 0.5) * (s.contrast / 100) + 0.5) * 255),
   truncate (((rgb.2.2 / 255 - 0.5) * (s.contrast / 100) + 0.5) * 255))

/-- The saturation block of the per-pixel loop, applied unconditionally. -/
def saturationStep (s : Settings) (rgb : ℚ × ℚ × ℚ) : ℚ × ℚ × ℚ :=
  let gray := 0.2989 * rgb.1 + 0.5870 * rgb.2.1 + 0.1140 * rgb.2.2
  (truncate (gray + (s.saturation / 100) * (rgb.1 - gray)),
   truncate (gray + (s.saturation / 100) * (rgb.2.1 - gray)),
   truncate (gray + (s.saturation / 100) * (rgb.2.2 - gray)))

/-- The grayscale block of the per-pixel loop. -/
def grayscaleStep (s : Settings) (rgb : ℚ × ℚ × ℚ) : ℚ × ℚ × ℚ :=
  if s.grayscale / 100 > 0 then
    let grayPixel := 0.2989 * rgb.1 + 0.5870 * rgb.2.1 + 0.1140 * rgb.2.2
    (truncate (rgb.1 * (1 - s.grayscale / 100) + grayPixel * (s.grayscale / 100)),
     truncate (rgb.2.1 * (1 - s.grayscale / 100) + grayPixel * (s.grayscale / 100)),
     truncate (rgb.2.2 * (1 - s.grayscale / 100) + grayPixel * (s.grayscale / 100)))
  else rgb

/-- The invert block of the per-pixel loop. -/
def invertStep (s : Settings) (rgb : ℚ × ℚ × ℚ) : ℚ × ℚ × ℚ :=
  if s.invert / 100 > 0 then
    (truncate (rgb.1 * (1 - s.invert / 100) + (255 - rgb.1) * (s.invert / 100)),
     truncate (rgb.2.1 * (1 - s.invert / 100) + (255 - rgb.2.1) * (s.invert / 100)),
     truncate (rgb.2.2 * (1 - s.invert / 100) + (255 - rgb.2.2) * (s.invert / 100)))
  else rgb

/-- The hue rotation block of the per-pixel loop: hueRotation is
settings.hue * 3.6 degrees; rotation happens in HSL degrees modulo 360. -/
def hueStep (s : Settings) (rgb : ℚ × ℚ × ℚ) : ℚ × ℚ × ℚ :=
  if s.hue * 3.6 ≠ 0 then
    let hsl := rgbToHsl rgb.1 rgb.2.1 rgb.2.2
    let h1 := jsMod (hsl.1 + s.hue * 3.6) 360
    let h2 := if h1 < 0 then h1 + 360 else h1
    let c := hslToRgb h2 hsl.2.1 hsl.2.2
    ((c.1 : ℚ), (c.2.1 : ℚ), (c.2.2 : ℚ))
  else rgb

/-- The sepia block of the per-pixel loop. -/
def sepiaStep (s : Settings) (rgb : ℚ × ℚ × ℚ) : ℚ × ℚ × ℚ :=
  if s.sepia / 100 > 0 then
    let sepiaR := 0.393 * rgb.1 + 0.769 * rgb.2.1 + 0.189 * rgb.2.2
    let sepiaG := 0.349 * rgb.1 + 0.686 * rgb.2.1 + 0.168 * rgb.2.2
    let sepiaB := 0.272 * rgb.1 + 0.534 * rgb.2.1 + 0.131 * rgb.2.2
    (truncate (rgb.1 * (1 - s.sepia / 100) + sepiaR * (s.sepia / 100)),
     truncate (rgb.2.1 * (1 - s.sepia / 100) + sepiaG * (s.sepia / 100)),
     truncate (rgb.2.2 * (1 - s.sepia / 100) + sepiaB * (s.sepia / 100)))
  else rgb

/-- The whole body of the per-pixel loop of applyImageAdjustments of
src/unnamed/part_008, in source order: brightness, contrast, saturation,
grayscale, invert, hue rotation, sepia. -/
def adjustPixel (s : Settings) (r0 g0 b0 : ℚ) : ℚ × ℚ × ℚ :=
  let rgb1 := brightnessStep s (r0, g0, b0)
  let rgb2 := contrastStep s rgb1
  let rgb3 := saturationStep s rgb2
  let rgb4 := grayscaleStep s rgb3
  let rgb5 := invertStep s rgb4
  let rgb6 := hueStep s rgb5
  sepiaStep s rgb6

/-- The per-pixel adjustment re-ordered as the specification claims it,
with hue rotation last (after sepia); used only to compare against the
actual adjustPixel above. -/
def adjustPixelHueLast (s : Settings) (r0 g0 b0 : ℚ) : ℚ × ℚ × ℚ :=
  let rgb1 := brightnessStep s (r0, g0, b0)
  let rgb2 := contrastStep s rgb1
  let rgb3 := saturationStep s rgb2
  let rgb4 := grayscaleStep s rgb3
  let rgb5 := invertStep s rgb4
  let rgb6 := sepiaStep s rgb5
  hueStep s rgb6

/-- The write-back of a loop iteration; the alpha slot pixels[i+3] is left
unchanged, as the source comment notes. -/
def adjustStore (s : Settings) (p : Pixel) : Pixel :=
  ⟨toByte (adjustPixel s p.r p.g p.b).1,
   toByte (adjustPixel s p.r p.g p.b).2.1,
   toByte (adjustPixel s p.r p.g p.b).2.2,
   p.a⟩

/-- applyImageAdjustments of src/unnamed/part_008 over the buffer. -/
def applyImageAdjustments (s : Settings) (pixels : List Pixel) : List Pixel :=
  pixels.map (adjustStore s)

/-- The cell brightness of part_008: the unweighted average (r + g + b) / 3. -/
def brightnessOf (p : Pixel) : ℚ := ((p.r : ℚ) + p.g + p.b) / 3

/-- The selected ramp index of part_008:
Math.min(chars.length - 1, Math.floor(brightness / 256 * chars.length)). -/
def charIndex (chars : List Char) (brightness : ℚ) : ℤ :=
  min ((chars.length : ℤ) - 1) ⌊brightness / 256 * chars.length⌋

/-- The characters appended for one cell of part_008. -/
def cellChars (chars : List Char) (p : Pixel) : List Char :=
  let i := charIndex chars (brightnessOf p)
  if i < 0 then ("undefined").toList
  else
    match chars[i.toNat]? with
    | some c => [c]
    | none => ("undefined").toList

/-- The active glyph ramp of part_008: customChars when non-empty, else the
CHAR_SETS entry named by charSetType (falling back to standard), else
charSet (falling back to standard when empty). -/
def chooseChars (s : Settings) : List Char :=
  if s.customChars ≠ [] then s.customChars
  else if s.charSetType ≠ "" then (CHAR_SETS s.charSetType).getD standardChars
  else if s.charSet ≠ [] then s.charSet
  else standardChars

/-- One row of the ASCII grid of part_008 (without the trailing newline). -/
def asciiLine (chars : List Char) (pixels : List Pixel) (w y : ℕ) : List Char :=
  ((List.range w).map fun x => cellChars chars (pixels.getD (y * w + x) ⟨0, 0, 0, 0⟩)).flatten

/-- The full character sequence of the ASCII output of part_008. -/
def asciiChars (chars : List Char) (pixels : List Pixel) (w h : ℕ) : List Char :=
  ((List.range h).map fun y => asciiLine chars pixels w y ++ ['\n']).flatten

/-- The text field of the conversion result of part_008. -/
def convertToAsciiText (pixels : List Pixel) (w h : ℕ) (s : Settings) : String :=
  ⟨asciiChars (chooseChars s) (applyImageAdjustments s pixels) w h⟩

/-- The colorMap of part_008: when colorized, the adjusted RGB of every
cell (part_008 reads the colors from the mutated buffer); otherwise empty. -/
def colorMap (pixels : List Pixel) (w h : ℕ) (s : Settings) :
    List (List (ℕ × ℕ × ℕ)) :=
  if s.colorized then
    (List.range h).map fun y => (List.range w).map fun x =>
      (((applyImageAdjustments s pixels).getD (y * w + x) ⟨0, 0, 0, 0⟩).r,
       ((applyImageAdjustments s pixels).getD (y * w + x) ⟨0, 0, 0, 0⟩).g,
       ((applyImageAdjustments s pixels).getD (y * w + x) ⟨0, 0, 0, 0⟩).b)
  else []

/-- The observable data convertToAscii of part_008 derives from the pixel
buffer: the text and the color map handed to createAsciiImage. -/
def convertToAscii (pixels : List Pixel) (w h : ℕ) (s : Settings) :
    String × List (List (ℕ × ℕ × ℕ)) :=
  (convertToAsciiText pixels w h s, colorMap pixels w h s)

end part008

/-- The 2 by 1 test image of the end-to-end example: a white pixel on the
left, a black pixel on the right, row-major. -/
def exampleBuffer : List Pixel := [⟨255, 255, 255, 255⟩, ⟨0, 0, 0, 255⟩]

/-- The settings of the end-to-end example: width 2, the simple ramp,
everything else at its default. -/
def exampleSettings : Settings := { width := 2, charSet := simpleChars }

/-- Settings with an empty active ramp for conv2ascii.js: customChars empty
and the named ramp resolving to the empty list. -/
def emptyRampSettings : Settings := { charSet := [], customChars := [] }

/-- Settings exercising both hue rotation and sepia, used to separate the
two application orders of part_008. -/
def hueSepiaSettings : Settings := { hue := 50, sepia := 100 }

/-! Basic helper lemmas. -/

theorem truncate_nonneg (v : ℚ) : 0 ≤ truncate v := by
  unfold truncate
  exact le_min (by norm_num) (le_max_left 0 v)

theorem truncate_le (v : ℚ) : truncate v ≤ 255 := min_le_left 255 (max 0 v)

theorem truncate_eq_self {v : ℚ} (h0 : 0 ≤ v) (h1 : v ≤ 255) : truncate v = v := by
  unfold truncate
  rw [max_eq_right h0, min_eq_right h1]

theorem roundHalfEven_intCast (n : ℤ) : roundHalfEven (n : ℚ) = n := by
  unfold roundHalfEven
  rw [Int.floor_intCast]
  norm_num

theorem toByte_natCast {n : ℕ} (h : n ≤ 255) : toByte (n : ℚ) = n := by
  unfold toByte
  rw [truncate_eq_self (by positivity) (by exact_mod_cast h)]
  rw [show ((n : ℚ)) = ((n : ℤ) : ℚ) by push_cast; ring, roundHalfEven_intCast]
  exact Int.toNat_natCast n

theorem map_eq_self_of {α : Type} (f : α → α) :
    ∀ l : List α, (∀ x ∈ l, f x = x) → l.map f = l := by
  intro l
  induction l with
  | nil => intro _; rfl
  | cons a t ih =>
      intro h
      simp only [List.map_cons, h a (by simp), List.cons.injEq, true_and]
      exact ih fun x hx => h x (by simp [hx])

theorem conv2ascii.adjustPixel_id_v1 (s : Settings) (hb : s.brightness = 100)
    (hc : s.contrast = 100) (hsat : s.saturation = 100) (hg : s.grayscale = 0)
    (hi : s.invert = 0) (hh : s.hue = 0) (hsp : s.sepia = 0) (r g b : ℚ) :
    conv2ascii.adjustPixel s r g b = (r, g, b) := by
  simp [conv2ascii.adjustPixel, conv2ascii.brightnessStep, conv2ascii.contrastStep,
    conv2ascii.saturationStep, conv2ascii.grayscaleStep, conv2ascii.invertStep,
    conv2ascii.sepiaStep, conv2ascii.hueStep, hb, hc, hsat, hg, hi, hh, hsp]

theorem part008.adjustPixel_id_v2 (s : Settings) (hb : s.brightness = 100)
    (hc : s.contrast = 100) (hsat : s.saturation = 100) (hg : s.grayscale = 0)
    (hi : s.invert = 0) (hh : s.hue = 0) (hsp : s.sepia = 0) (r g b : ℚ)
    (hr0 : 0 ≤ r) (hr1 : r ≤ 255) (hg0 : 0 ≤ g) (hg1 : g ≤ 255)
    (hb0 : 0 ≤ b) (hb1 : b ≤ 255) :
    part008.adjustPixel s r g b = (r, g, b) := by
  have e1 : part008.brightnessStep s (r, g, b) = (r, g, b) := by
    simp only [part008.brightnessStep, hb]
    norm_num
    exact ⟨truncate_eq_self hr0 hr1, truncate_eq_self hg0 hg1, truncate_eq_self hb0 hb1⟩
  have ec : ∀ x : ℚ, ((x / 255 - 0.5) * (s.contrast / 100) + 0.5) * 255 = x := by
    intro x
    rw [hc]
    ring
  have e2 : part008.contrastStep s (r, g, b) = (r, g, b) := by
    simp only [part008.contrastStep, ec]
    exact congrArg₂ _ (truncate_eq_self hr0 hr1)
      (congrArg₂ _ (truncate_eq_self hg0 hg1) (truncate_eq_self hb0 hb1))
  have es : ∀ x gray : ℚ, gray + (s.saturation / 100) * (x - gray) = x := by
    intro x gray
    rw [hsat]
    ring
  have e3 : part008.saturationStep s (r, g, b) = (r, g, b) := by
    simp only [part008.saturationStep, es]
    exact congrArg₂ _ (truncate_eq_self hr0 hr1)
      (congrArg₂ _ (truncate_eq_self hg0 hg1) (truncate_eq_self hb0 hb1))
  have e4 : part008.grayscaleStep s (r, g, b) = (r, g, b) := by
    simp [part008.grayscaleStep, hg]
  have e5 : part008.invertStep s (r, g, b) = (r, g, b) := by
    simp [part008.invertStep, hi]
  have e6 : part008.hueStep s (r, g, b) = (r, g, b) := by
    simp [part008.hueStep, hh]
  have e7 : part008.sepiaStep s (r, g, b) = (r, g, b) := by
    simp [part008.sepiaStep, hsp]
  simp only [part008.adjustPixel, e1, e2, e3, e4, e5, e6, e7]

theorem conv2ascii.adjustStore_id_v1 (s : Settings) (hb : s.brightness = 100)
    (hc : s.contrast = 100) (hsat : s.saturation = 100) (hg : s.grayscale = 0)
    (hi : s.invert = 0) (hh : s.hue = 0) (hsp : s.sepia = 0) (p : Pixel)
    (hp : p.r ≤ 255 ∧ p.g ≤ 255 ∧ p.b ≤ 255) :
    conv2ascii.adjustStore s p = p := by
  unfold conv2ascii.adjustStore
  rw [conv2ascii.adjustPixel_id_v1 s hb hc hsat hg hi hh hsp]
  simp [toByte_natCast hp.1, toByte_natCast hp.2.1, toByte_natCast hp.2.2]

theorem part008.adjustStore_id_v2 (s : Settings) (hb : s.brightness = 100)
    (hc : s.contrast = 100) (hsat : s.saturation = 100) (hg : s.grayscale = 0)
    (hi : s.invert = 0) (hh : s.hue = 0) (hsp : s.sepia = 0) (p : Pixel)
    (hp : p.r ≤ 255 ∧ p.g ≤ 255 ∧ p.b ≤ 255) :
    part008.adjustStore s p = p := by
  unfold part008.adjustStore
  rw [part008.adjustPixel_id_v2 s hb hc hsat hg hi hh hsp _ _ _ (by positivity)
    (by exact_mod_cast hp.1) (by positivity) (by exact_mod_cast hp.2.1)
    (by positivity) (by exact_mod_cast hp.2.2)]
  simp [toByte_natCast hp.1, toByte_natCast hp.2.1, toByte_natCast hp.2.2]

/-- Claim C4: with every adjustment factor at its identity value
(brightness 100, contrast 100, saturation 100, grayscale 0, invert 0,
hue 0, sepia 0), the adjustment stage of both variants leaves every pixel
of the buffer exactly unchanged (which is stronger than the claimed
tolerance of one per channel). -/
theorem claim_C4_identity_adjustments (s : Settings) (pixels : List Pixel)
    (hb : s.brightness = 100) (hc : s.contrast = 100) (hsat : s.saturation = 100)
    (hg : s.grayscale = 0) (hi : s.invert = 0) (hh : s.hue = 0) (hsp : s.sepia = 0)
    (hpx : ∀ p ∈ pixels, p.r ≤ 255 ∧ p.g ≤ 255 ∧ p.b ≤ 255) :
    conv2ascii.applyImageAdjustments s pixels = pixels ∧
    part008.applyImageAdjustments s pixels = pixels := by
  constructor
  · exact map_eq_self_of _ pixels fun p hp =>
      conv2ascii.adjustStore_id_v1 s hb hc hsat hg hi hh hsp p (hpx p hp)
  · exact map_eq_self_of _ pixels fun p hp =>
      part008.adjustStore_id_v2 s hb hc hsat hg hi hh hsp p (hpx p hp)

/-- Witness for claim C4 at a concrete buffer and the defaults object. -/
theorem claim_C4_witness :
    conv2ascii.applyImageAdjustments defaults [⟨5, 6, 7, 8⟩] = [⟨5, 6, 7, 8⟩] ∧
    part008.applyImageAdjustments defaults [⟨5, 6, 7, 8⟩] = [⟨5, 6, 7, 8⟩] :=
  claim_C4_identity_adjustments defaults [⟨5, 6, 7, 8⟩] rfl rfl rfl rfl rfl rfl rfl
    (by decide)

theorem conv2ascii.adjustPixel_proj_v1 (s₁ s₂ : Settings) (hb : s₁.brightness = s₂.brightness)
    (hc : s₁.contrast = s₂.contrast) (hsat : s₁.saturation = s₂.saturation)
    (hg : s₁.grayscale = s₂.grayscale) (hi : s₁.invert = s₂.invert) (hh : s₁.hue = s₂.hue)
    (hsp : s₁.sepia = s₂.sepia) :
    conv2ascii.adjustPixel s₁ = conv2ascii.adjustPixel s₂ := by
  funext r g b
  simp only [conv2ascii.adjustPixel, conv2ascii.brightnessStep, conv2ascii.contrastStep,
    conv2ascii.saturationStep, conv2ascii.grayscaleStep, conv2ascii.invertStep,
    conv2ascii.sepiaStep, conv2ascii.hueStep, hb, hc, hsat, hg, hi, hh, hsp]

theorem part008.adjustPixel_proj_v2 (s₁ s₂ : Settings) (hb : s₁.brightness = s₂.brightness)
    (hc : s₁.contrast = s₂.contrast) (hsat : s₁.saturation = s₂.saturation)
    (hg : s₁.grayscale = s₂.grayscale) (hi : s₁.invert = s₂.invert) (hh : s₁.hue = s₂.hue)
    (hsp : s₁.sepia = s₂.sepia) :
    part008.adjustPixel s₁ = part008.adjustPixel s₂ := by
  funext r g b
  simp only [part008.adjustPixel, part008.brightnessStep, part008.contrastStep,
    part008.saturationStep, part008.grayscaleStep, part008.invertStep,
    part008.sepiaStep, part008.hueStep, hb, hc, hsat, hg, hi, hh, hsp]

theorem conv2ascii.convertToAsciiText_proj_v1 (pixels : List Pixel) (w h : ℕ) (s₁ s₂ : Settings)
    (hb : s₁.brightness = s₂.brightness) (hc : s₁.contrast = s₂.contrast)
    (hsat : s₁.saturation = s₂.saturation) (hg : s₁.grayscale = s₂.grayscale)
    (hi : s₁.invert = s₂.invert) (hh : s₁.hue = s₂.hue) (hsp : s₁.sepia = s₂.sepia)
    (hcu : s₁.customChars = s₂.customChars) (hcs : s₁.charSet = s₂.charSet) :
    conv2ascii.convertToAsciiText pixels w h s₁ = conv2ascii.convertToAsciiText pixels w h s₂ := by
  have hap := conv2ascii.adjustPixel_proj_v1 s₁ s₂ hb hc hsat hg hi hh hsp
  have hst : conv2ascii.adjustStore s₁ = conv2ascii.adjustStore s₂ := by
    funext p
    simp only [conv2ascii.adjustStore, hap]
  simp only [conv2ascii.convertToAsciiText, conv2ascii.chooseChars,
    conv2ascii.applyImageAdjustments, hst, hcu, hcs]

theorem part008.convertToAsciiText_proj_v2 (pixels : List Pixel) (w h : ℕ) (s₁ s₂ : Settings)
    (hb : s₁.brightness = s₂.brightness) (hc : s₁.contrast = s₂.contrast)
    (hsat : s₁.saturation = s₂.saturation) (hg : s₁.grayscale = s₂.grayscale)
    (hi : s₁.invert = s₂.invert) (hh : s₁.hue = s₂.hue) (hsp : s₁.sepia = s₂.sepia)
    (hcu : s₁.customChars = s₂.customChars) (hcs : s₁.charSet = s₂.charSet)
    (hct : s₁.charSetType = s₂.charSetType) :
    part008.convertToAsciiText pixels w h s₁ = part008.convertToAsciiText pixels w h s₂ := by
  have hap := part008.adjustPixel_proj_v2 s₁ s₂ hb hc hsat hg hi hh hsp
  have hst : part008.adjustStore s₁ = part008.adjustStore s₂ := by
    funext p
    simp only [part008.adjustStore, hap]
  simp only [part008.convertToAsciiText, part008.chooseChars,
    part008.applyImageAdjustments, hst, hcu, hcs, hct]

/-- Claim C9: the text field of the conversion result does not depend on
the colorized flag, in either variant; only the color map (used by the
image rendering) differs. -/
theorem claim_C9_colorized_text_invariant (pixels : List Pixel) (w h : ℕ) (s : Settings) :
    (conv2ascii.convertToAscii pixels w h { s with colorized := true }).1 =
      (conv2ascii.convertToAscii pixels w h { s with colorized := false }).1 ∧
    (part008.convertToAscii pixels w h { s with colorized := true }).1 =
      (part008.convertToAscii pixels w h { s with colorized := false }).1 :=
  ⟨conv2ascii.convertToAsciiText_proj_v1 pixels w h _ _ rfl rfl rfl rfl rfl rfl rfl rfl rfl,
   part008.convertToAsciiText_proj_v2 pixels w h _ _ rfl rfl rfl rfl rfl rfl rfl rfl rfl rfl⟩

/-- Claim C10: the adjustment stage of either variant never modifies the
alpha channel of any pixel. -/
theorem claim_C10_alpha_never_modified (s : Settings) (pixels : List Pixel) :
    (conv2ascii.applyImageAdjustments s pixels).map Pixel.a = pixels.map Pixel.a ∧
    (part008.applyImageAdjustments s pixels).map Pixel.a = pixels.map Pixel.a := by
  constructor
  · rw [conv2ascii.applyImageAdjustments, List.map_map]
    rfl
  · rw [part008.applyImageAdjustments, List.map_map]
    rfl

set_option maxHeartbeats 1000000 in
/-- Claim C3: the code performs none of the claimed fail-fast validation.
With an empty active ramp, conv2ascii.js emits the text undefined for
every cell and returns it as the result text; with zero effective
dimensions it silently returns the empty text; part_008 silently
substitutes the standard ramp for an empty one.  This contradicts the
claimed InvalidInput error. -/
theorem claim_C3_no_invalid_input_error :
    conv2ascii.convertToAsciiText [⟨0, 0, 0, 255⟩] 1 1 emptyRampSettings = "undefined\n" ∧
    conv2ascii.convertToAsciiText [] 0 0 defaults = "" ∧
    part008.chooseChars emptyRampSettings = standardChars ∧
    part008.convertToAsciiText [⟨0, 0, 0, 255⟩] 1 1 emptyRampSettings = "█\n" := by
  refine ⟨?_, ?_, ?_, ?_⟩
  · norm_num [conv2ascii.convertToAsciiText, conv2ascii.asciiChars, conv2ascii.asciiLine,
      conv2ascii.cellChars, conv2ascii.charIndex, conv2ascii.brightnessOf, conv2ascii.chooseChars,
      conv2ascii.applyImageAdjustments, conv2ascii.adjustStore, conv2ascii.adjustPixel,
      conv2ascii.brightnessStep, conv2ascii.contrastStep, conv2ascii.saturationStep,
      conv2ascii.grayscaleStep, conv2ascii.invertStep, conv2ascii.sepiaStep, conv2ascii.hueStep,
      emptyRampSettings, toByte, truncate, roundHalfEven, round_eq, List.range_succ]
  · norm_num [conv2ascii.convertToAsciiText, conv2ascii.asciiChars]
  · rfl
  · norm_num [part008.convertToAsciiText, part008.asciiChars, part008.asciiLine,
      part008.cellChars, part008.charIndex, part008.brightnessOf, part008.chooseChars,
      part008.applyImageAdjustments, part008.adjustStore, part008.adjustPixel,
      part008.brightnessStep, part008.contrastStep, part008.saturationStep,
      part008.grayscaleStep, part008.invertStep, part008.sepiaStep, part008.hueStep,
      emptyRampSettings, standardChars, toByte, truncate, roundHalfEven, round_eq,
      List.range_succ, Int.min_def]

theorem conv2ascii.brightnessOf_nonneg_v1 (p : Pixel) : 0 ≤ conv2ascii.brightnessOf p := by
  unfold conv2ascii.brightnessOf
  rw [round_eq]
  exact Int.floor_nonneg.mpr (by positivity)

theorem part008.brightnessOf_nonneg_v2 (p : Pixel) : 0 ≤ part008.brightnessOf p := by
  unfold part008.brightnessOf
  positivity

theorem conv2ascii.cellChars_mem_v1 (chars : List Char) (hne : chars ≠ []) (p : Pixel) :
    ∃ c ∈ chars, conv2ascii.cellChars chars p = [c] := by
  have hn : 0 < chars.length := List.length_pos.mpr hne
  have hL := conv2ascii.brightnessOf_nonneg_v1 p
  have h0 : 0 ≤ conv2ascii.charIndex chars (conv2ascii.brightnessOf p) := by
    unfold conv2ascii.charIndex
    refine le_min (by omega) (Int.floor_nonneg.mpr ?_)
    have : (0 : ℚ) ≤ (conv2ascii.brightnessOf p : ℚ) := by exact_mod_cast hL
    positivity
  have hlt : conv2ascii.charIndex chars (conv2ascii.brightnessOf p) < chars.length :=
    lt_of_le_of_lt (min_le_left _ _) (by omega)
  have htn : (conv2ascii.charIndex chars (conv2ascii.brightnessOf p)).toNat < chars.length := by
    omega
  refine ⟨chars[(conv2ascii.charIndex chars (conv2ascii.brightnessOf p)).toNat],
    List.getElem_mem htn, ?_⟩
  unfold conv2ascii.cellChars
  rw [if_neg (by omega), List.getElem?_eq_getElem htn]

theorem part008.cellChars_mem_v2 (chars : List Char) (hne : chars ≠ []) (p : Pixel) :
    ∃ c ∈ chars, part008.cellChars chars p = [c] := by
  have hn : 0 < chars.length := List.length_pos.mpr hne
  have hL := part008.brightnessOf_nonneg_v2 p
  have h0 : 0 ≤ part008.charIndex chars (part008.brightnessOf p) := by
    unfold part008.charIndex
    refine le_min (by omega) (Int.floor_nonneg.mpr ?_)
    positivity
  have hlt : part008.charIndex chars (part008.brightnessOf p) < chars.length :=
    lt_of_le_of_lt (min_le_left _ _) (by omega)
  have htn : (part008.charIndex chars (part008.brightnessOf p)).toNat < chars.length := by
    omega
  refine ⟨chars[(part008.charIndex chars (part008.brightnessOf p)).toNat],
    List.getElem_mem htn, ?_⟩
  unfold part008.cellChars
  rw [if_neg (by omega), List.getElem?_eq_getElem htn]

theorem conv2ascii.mem_asciiChars_v1 (chars : List Char) (hne : chars ≠ [])
    (pixels : List Pixel) (w h : ℕ) (c : Char)
    (hc : c ∈ conv2ascii.asciiChars chars pixels w h) : c ∈ chars ∨ c = '\n' := by
  unfold conv2ascii.asciiChars at hc
  rw [List.mem_flatten] at hc
  obtain ⟨line, hline, hcl⟩ := hc
  rw [List.mem_map] at hline
  obtain ⟨y, _, rfl⟩ := hline
  rw [List.mem_append] at hcl
  rcases hcl with hcl | hcl
  · unfold conv2ascii.asciiLine at hcl
    rw [List.mem_flatten] at hcl
    obtain ⟨cell, hcell, hccell⟩ := hcl
    rw [List.mem_map] at hcell
    obtain ⟨x, _, rfl⟩ := hcell
    obtain ⟨ch, hch, hceq⟩ := conv2ascii.cellChars_mem_v1 chars hne _
    rw [hceq, List.mem_singleton] at hccell
    exact Or.inl (hccell ▸ hch)
  · rw [List.mem_singleton] at hcl
    exact Or.inr hcl

theorem part008.mem_asciiChars_v2 (chars : List Char) (hne : chars ≠ [])
    (pixels : List Pixel) (w h : ℕ) (c : Char)
    (hc : c ∈ part008.asciiChars chars pixels w h) : c ∈ chars ∨ c = '\n' := by
  unfold part008.asciiChars at hc
  rw [List.mem_flatten] at hc
  obtain ⟨line, hline, hcl⟩ := hc
  rw [List.mem_map] at hline
  obtain ⟨y, _, rfl⟩ := hline
  rw [List.mem_append] at hcl
  rcases hcl with hcl | hcl
  · unfold part008.asciiLine at hcl
    rw [List.mem_flatten] at hcl
    obtain ⟨cell, hcell, hccell⟩ := hcl
    rw [List.mem_map] at hcell
    obtain ⟨x, _, rfl⟩ := hcell
    obtain ⟨ch, hch, hceq⟩ := part008.cellChars_mem_v2 chars hne _
    rw [hceq, List.mem_singleton] at hccell
    exact Or.inl (hccell ▸ hch)
  · rw [List.mem_singleton] at hcl
    exact Or.inr hcl

/-- Claim C6: when customChars is non-empty it is the active ramp in both
variants: every output character is one of customChars (or the newline),
and the named ramp (charSet, and for part_008 also charSetType) has no
influence on the text. -/
theorem claim_C6_custom_ramp_precedence (pixels : List Pixel) (w h : ℕ) (s : Settings)
    (hne : s.customChars ≠ []) :
    ((∀ c ∈ (conv2ascii.convertToAsciiText pixels w h s).data, c ∈ s.customChars ∨ c = '\n') ∧
     ∀ cs : List Char, conv2ascii.convertToAsciiText pixels w h { s with charSet := cs } =
       conv2ascii.convertToAsciiText pixels w h s) ∧
    ((∀ c ∈ (part008.convertToAsciiText pixels w h s).data, c ∈ s.customChars ∨ c = '\n') ∧
     ∀ (t : String) (cs : List Char),
       part008.convertToAsciiText pixels w h { s with charSetType := t, charSet := cs } =
       part008.convertToAsciiText pixels w h s) := by
  have hch1 : conv2ascii.chooseChars s = s.customChars := by
    unfold conv2ascii.chooseChars
    rw [if_pos hne]
  have hch2 : part008.chooseChars s = s.customChars := by
    unfold part008.chooseChars
    rw [if_pos hne]
  refine ⟨⟨?_, ?_⟩, ?_, ?_⟩
  · intro c hc
    have : c ∈ conv2ascii.asciiChars (conv2ascii.chooseChars s)
        (conv2ascii.applyImageAdjustments s pixels) w h := hc
    rw [hch1] at this
    exact conv2ascii.mem_asciiChars_v1 _ hne _ _ _ _ this
  · intro cs
    have h1 : conv2ascii.chooseChars { s with charSet := cs } = conv2ascii.chooseChars s := by
      unfold conv2ascii.chooseChars
      rw [if_pos hne, if_pos hne]
    have h2 : conv2ascii.adjustStore { s with charSet := cs } = conv2ascii.adjustStore s := by
      funext p
      simp only [conv2ascii.adjustStore,
        conv2ascii.adjustPixel_proj_v1 { s with charSet := cs } s rfl rfl rfl rfl rfl rfl rfl]
    simp only [conv2ascii.convertToAsciiText, conv2ascii.applyImageAdjustments, h1, h2]
  · intro c hc
    have : c ∈ part008.asciiChars (part008.chooseChars s)
        (part008.applyImageAdjustments s pixels) w h := hc
    rw [hch2] at this
    exact part008.mem_asciiChars_v2 _ hne _ _ _ _ this
  · intro t cs
    have h1 : part008.chooseChars { s with charSetType := t, charSet := cs } =
        part008.chooseChars s := by
      unfold part008.chooseChars
      rw [if_pos hne, if_pos hne]
    have h2 : part008.adjustStore { s with charSetType := t, charSet := cs } =
        part008.adjustStore s := by
      funext p
      simp only [part008.adjustStore,
        part008.adjustPixel_proj_v2 { s with charSetType := t, charSet := cs } s
          rfl rfl rfl rfl rfl rfl rfl]
    simp only [part008.convertToAsciiText, part008.applyImageAdjustments, h1, h2]

/-- Witness for claim C6: customChars AB with the blocks charSet on a one
pixel image. -/
theorem claim_C6_witness :
    ((∀ c ∈ (conv2ascii.convertToAsciiText [⟨0, 0, 0, 255⟩] 1 1
        { customChars := ['A', 'B'], charSet := blocksChars }).data,
        c ∈ (({ customChars := ['A', 'B'], charSet := blocksChars } : Settings)).customChars ∨
        c = '\n') ∧
     ∀ cs : List Char, conv2ascii.convertToAsciiText [⟨0, 0, 0, 255⟩] 1 1
        { ({ customChars := ['A', 'B'], charSet := blocksChars } : Settings) with charSet := cs } =
       conv2ascii.convertToAsciiText [⟨0, 0, 0, 255⟩] 1 1
        { customChars := ['A', 'B'], charSet := blocksChars }) ∧
    ((∀ c ∈ (part008.convertToAsciiText [⟨0, 0, 0, 255⟩] 1 1
        { customChars := ['A', 'B'], charSet := blocksChars }).data,
        c ∈ (({ customChars := ['A', 'B'], charSet := blocksChars } : Settings)).customChars ∨
        c = '\n') ∧
     ∀ (t : String) (cs : List Char),
       part008.convertToAsciiText [⟨0, 0, 0, 255⟩] 1 1
        { ({ customChars := ['A', 'B'], charSet := blocksChars } : Settings) with
            charSetType := t, charSet := cs } =
       part008.convertToAsciiText [⟨0, 0, 0, 255⟩] 1 1
        { customChars := ['A', 'B'], charSet := blocksChars }) :=
  claim_C6_custom_ramp_precedence [⟨0, 0, 0, 255⟩] 1 1
    { customChars := ['A', 'B'], charSet := blocksChars } (by decide)

theorem intFloor_natCast_div (a b : ℕ) (hb : 0 < b) :
    ⌊(a : ℚ) / (b : ℚ)⌋ = ((a / b : ℕ) : ℤ) := by
  have hbq : (0 : ℚ) < b := by exact_mod_cast hb
  rw [Int.floor_eq_iff]
  constructor
  · rw [Int.cast_natCast, le_div_iff₀ hbq]
    exact_mod_cast Nat.div_mul_le_self a b
  · have h1 : a < (a / b + 1) * b := by
      calc a = b * (a / b) + a % b := (Nat.div_add_mod a b).symm
        _ < b * (a / b) + b := by
            have := Nat.mod_lt a hb
            omega
        _ = (a / b + 1) * b := by ring
    rw [div_lt_iff₀ hbq]
    exact_mod_cast h1

theorem conv2ascii.charIndex_eq_v1 (chars : List Char) (hne : chars ≠ []) (L : ℤ) (hL : 0 ≤ L) :
    conv2ascii.charIndex chars L =
      ((min (chars.length - 1) (chars.length * L.toNat / 256) : ℕ) : ℤ) := by
  have hn : 0 < chars.length := List.length_pos.mpr hne
  have hLn : ((L.toNat : ℕ) : ℚ) = (L : ℚ) := by
    exact_mod_cast congrArg (fun z : ℤ => (z : ℚ)) (Int.toNat_of_nonneg hL)
  have hq : (chars.length : ℚ) * L / 256 = ((chars.length * L.toNat : ℕ) : ℚ) / ((256 : ℕ) : ℚ) := by
    push_cast [hLn]
    ring
  unfold conv2ascii.charIndex
  rw [hq, intFloor_natCast_div _ _ (by norm_num)]
  push_cast
  omega

theorem part008.charIndex_eq_v2 (chars : List Char) (hne : chars ≠ []) (p : Pixel) :
    part008.charIndex chars (part008.brightnessOf p) =
      ((min (chars.length - 1) (chars.length * (p.r + p.g + p.b) / 768) : ℕ) : ℤ) := by
  have hn : 0 < chars.length := List.length_pos.mpr hne
  have hq : part008.brightnessOf p / 256 * chars.length =
      ((chars.length * (p.r + p.g + p.b) : ℕ) : ℚ) / ((768 : ℕ) : ℚ) := by
    unfold part008.brightnessOf
    push_cast
    ring
  unfold part008.charIndex
  rw [hq, intFloor_natCast_div _ _ (by norm_num)]
  push_cast
  omega

theorem conv2ascii.cellChars_eq_v1 (chars : List Char) (hne : chars ≠ []) (p : Pixel) :
    conv2ascii.cellChars chars p =
      [chars.getD (min (chars.length - 1)
        (chars.length * (conv2ascii.brightnessOf p).toNat / 256)) '?'] := by
  have hn : 0 < chars.length := List.length_pos.mpr hne
  have hidx := conv2ascii.charIndex_eq_v1 chars hne _ (conv2ascii.brightnessOf_nonneg_v1 p)
  have hlt : min (chars.length - 1) (chars.length * (conv2ascii.brightnessOf p).toNat / 256) <
      chars.length := by omega
  unfold conv2ascii.cellChars
  rw [hidx, if_neg (by omega), Int.toNat_natCast, List.getElem?_eq_getElem hlt,
    List.getD_eq_getElem chars '?' hlt]

theorem part008.cellChars_eq_v2 (chars : List Char) (hne : chars ≠ []) (p : Pixel) :
    part008.cellChars chars p =
      [chars.getD (min (chars.length - 1)
        (chars.length * (p.r + p.g + p.b) / 768)) '?'] := by
  have hn : 0 < chars.length := List.length_pos.mpr hne
  have hidx := part008.charIndex_eq_v2 chars hne p
  have hlt : min (chars.length - 1) (chars.length * (p.r + p.g + p.b) / 768) <
      chars.length := by omega
  unfold part008.cellChars
  rw [hidx, if_neg (by omega), Int.toNat_natCast, List.getElem?_eq_getElem hlt,
    List.getD_eq_getElem chars '?' hlt]

/-- Claim C1, counterexample: at the cell with RGB (0, 0, 255) and the
extended ramp, part_008 selects the glyph from the unweighted average 85,
picking the asterisk, while the weighted luminance 29 of the canonical
formula (used by conv2ascii.js) picks the percent sign; so part_008 does
not use the weighted formula. -/
theorem claim_C1_counterexample :
    part008.cellChars extendedChars ⟨0, 0, 255, 255⟩ = ['*'] ∧
    conv2ascii.cellChars extendedChars ⟨0, 0, 255, 255⟩ = ['%'] ∧
    (['*'] : List Char) ≠ ['%'] := by
  refine ⟨?_, ?_, by decide⟩
  · norm_num [part008.cellChars, part008.charIndex, part008.brightnessOf, extendedChars,
      Int.min_def, Int.toNat_ofNat]
    rfl
  · norm_num [conv2ascii.cellChars, conv2ascii.charIndex, conv2ascii.brightnessOf, extendedChars,
      round_eq, Int.min_def, Int.toNat_ofNat]

/-- Claim C1, amended: only the conv2ascii.js variant computes the cell
luminance by the weighted formula round(0.299 R + 0.587 G + 0.114 B); the
part_008 variant instead selects the glyph from the unweighted average
(R + G + B) / 3.  In both variants the selected glyph is
chars[min(length - 1, floor(length * luminance / 256))]. -/
theorem claim_C1_amended (chars : List Char) (p : Pixel) (hne : chars ≠ []) :
    conv2ascii.cellChars chars p =
      [chars.getD (min (chars.length - 1)
        (chars.length * (round ((299 * (p.r : ℚ) + 587 * p.g + 114 * p.b) / 1000)).toNat / 256))
        '?'] ∧
    part008.cellChars chars p =
      [chars.getD (min (chars.length - 1)
        (chars.length * (p.r + p.g + p.b) / 768)) '?'] := by
  constructor
  · have hlum : conv2ascii.brightnessOf p =
        round ((299 * (p.r : ℚ) + 587 * p.g + 114 * p.b) / 1000) := by
      unfold conv2ascii.brightnessOf
      congr 1
      ring
    rw [conv2ascii.cellChars_eq_v1 chars hne p, hlum]
  · exact part008.cellChars_eq_v2 chars hne p

/-- Witness for claim C1 at the extended ramp and the pixel (0, 0, 255). -/
theorem claim_C1_witness :
    conv2ascii.cellChars extendedChars ⟨0, 0, 255, 255⟩ =
      [extendedChars.getD (min (extendedChars.length - 1)
        (extendedChars.length *
          (round ((299 * ((0 : ℕ) : ℚ) + 587 * (0 : ℕ) + 114 * (255 : ℕ)) / 1000)).toNat / 256))
        '?'] ∧
    part008.cellChars extendedChars ⟨0, 0, 255, 255⟩ =
      [extendedChars.getD (min (extendedChars.length - 1)
        (extendedChars.length * (0 + 0 + 255) / 768)) '?'] :=
  claim_C1_amended extendedChars ⟨0, 0, 255, 255⟩ (by decide)

set_option maxHeartbeats 1000000 in
theorem conv2ascii.exampleText_eq :
    conv2ascii.convertToAsciiText exampleBuffer 2 1 exampleSettings = " #\n" := by
  have hadj : conv2ascii.applyImageAdjustments exampleSettings exampleBuffer = exampleBuffer :=
    map_eq_self_of _ _ fun p hp =>
      conv2ascii.adjustStore_id_v1 exampleSettings rfl rfl rfl rfl rfl rfl rfl p (by
        fin_cases hp <;> decide)
  unfold conv2ascii.convertToAsciiText
  rw [hadj]
  norm_num [conv2ascii.asciiChars, conv2ascii.asciiLine, conv2ascii.cellChars,
    conv2ascii.charIndex, conv2ascii.brightnessOf, conv2ascii.chooseChars,
    exampleSettings, exampleBuffer, simpleChars, round_eq,
    List.range_succ, Int.min_def, Int.toNat_ofNat]
  rfl

/-- Claim C2, counterexample: the end-to-end example does not produce the
claimed text.  The white pixel is the left one, so the row starts with the
space glyph: the result is the string of a space, a hash and a newline,
not hash, space, newline. -/
theorem claim_C2_counterexample :
    conv2ascii.convertToAsciiText exampleBuffer 2 1 exampleSettings ≠ "# \n" := by
  rw [conv2ascii.exampleText_eq]
  decide

/-- Claim C2, amended: the index formula holds as claimed, and the 2 by 1
white-left black-right example with width 2 and the simple ramp produces
the text of a space (for the white pixel, left) followed by a hash (for
the black pixel) and a newline, rather than hash-then-space. -/
theorem claim_C2_amended :
    (∀ (chars : List Char) (L : ℕ), chars ≠ [] → L < 256 →
      conv2ascii.charIndex chars (L : ℤ) =
        ((min (chars.length - 1) (chars.length * L / 256) : ℕ) : ℤ)) ∧
    conv2ascii.effectiveWidth exampleSettings = 2 ∧
    conv2ascii.effectiveHeight exampleSettings 2 1 = 1 ∧
    conv2ascii.convertToAsciiText exampleBuffer 2 1 exampleSettings = " #\n" := by
  refine ⟨?_, ?_, ?_, conv2ascii.exampleText_eq⟩
  · intro chars L hne _
    have := conv2ascii.charIndex_eq_v1 chars hne (L : ℤ) (by positivity)
    rwa [Int.toNat_natCast] at this
  · norm_num [conv2ascii.effectiveWidth, exampleSettings, round_eq]
  · norm_num [conv2ascii.effectiveHeight, conv2ascii.settingsHeight, exampleSettings, round_eq]

/-- Witness for the quantified part of claim C2: the simple ramp at
luminance 255 selects index 2. -/
theorem claim_C2_witness :
    conv2ascii.charIndex simpleChars ((255 : ℕ) : ℤ) =
      ((min (simpleChars.length - 1) (simpleChars.length * 255 / 256) : ℕ) : ℤ) :=
  claim_C2_amended.1 simpleChars 255 (by decide) (by decide)

set_option maxHeartbeats 2000000 in
/-- Claim C5, counterexample: on the red pixel with hue rotation 50 and
sepia 100, the part_008 adjustment (hue before sepia) produces a bright
sepia-toned cyan, while applying the same blocks with hue rotation last
(the claimed order) produces a much darker color; the orders are not
interchangeable and part_008 does not apply hue rotation last. -/
theorem claim_C5_counterexample :
    part008.adjustPixel hueSepiaSettings 255 0 0 ≠
      part008.adjustPixelHueLast hueSepiaSettings 255 0 0 := by
  norm_num [part008.adjustPixel, part008.adjustPixelHueLast, part008.brightnessStep,
    part008.contrastStep, part008.saturationStep, part008.grayscaleStep, part008.invertStep,
    part008.hueStep, part008.sepiaStep, part008.rgbToHsl, part008.hslToRgb, hue2rgb,
    jsMod, jsTrunc, hueSepiaSettings, truncate, round_eq, max_def, min_def, Prod.ext_iff]

/-- Claim C5, amended: the conv2ascii.js variant applies the blocks in the
order brightness, contrast, saturation, grayscale, invert, sepia, and hue
rotation last; the part_008 variant applies hue rotation sixth, before
sepia, which is applied last. -/
theorem claim_C5_adjustment_order (s : Settings) (r g b : ℚ) :
    conv2ascii.adjustPixel s r g b =
      conv2ascii.hueStep s (conv2ascii.sepiaStep s (conv2ascii.invertStep s
        (conv2ascii.grayscaleStep s (conv2ascii.saturationStep s
          (conv2ascii.contrastStep s (conv2ascii.brightnessStep s (r, g, b))))))) ∧
    part008.adjustPixel s r g b =
      part008.sepiaStep s (part008.hueStep s (part008.invertStep s
        (part008.grayscaleStep s (part008.saturationStep s
          (part008.contrastStep s (part008.brightnessStep s (r, g, b))))))) :=
  ⟨rfl, rfl⟩

/-- The range property claimed for adjusted channels: every channel of the
triple lies within 0..255. -/
def inRGB (t : ℚ × ℚ × ℚ) : Prop :=
  0 ≤ t.1 ∧ t.1 ≤ 255 ∧ 0 ≤ t.2.1 ∧ t.2.1 ≤ 255 ∧ 0 ≤ t.2.2 ∧ t.2.2 ≤ 255

instance (t : ℚ × ℚ × ℚ) : Decidable (inRGB t) := by
  unfold inRGB
  infer_instance

theorem trunc_triple_mem (a b c : ℚ) : inRGB (truncate a, truncate b, truncate c) :=
  ⟨truncate_nonneg _, truncate_le _, truncate_nonneg _, truncate_le _,
   truncate_nonneg _, truncate_le _⟩

theorem conv2ascii.hslToRgb_mem_v1 (h s l : ℚ) : inRGB (conv2ascii.hslToRgb h s l) := by
  unfold conv2ascii.hslToRgb
  split_ifs <;> exact trunc_triple_mem _ _ _

theorem conv2ascii.brightnessStep_mem_v1 (s : Settings) (rgb : ℚ × ℚ × ℚ) (h : inRGB rgb) :
    inRGB (conv2ascii.brightnessStep s rgb) := by
  unfold conv2ascii.brightnessStep
  split_ifs
  · exact trunc_triple_mem _ _ _
  · exact h

theorem conv2ascii.contrastStep_mem_v1 (s : Settings) (rgb : ℚ × ℚ × ℚ) (h : inRGB rgb) :
    inRGB (conv2ascii.contrastStep s rgb) := by
  unfold conv2ascii.contrastStep
  split_ifs
  · exact trunc_triple_mem _ _ _
  · exact h

theorem conv2ascii.saturationStep_mem_v1 (s : Settings) (rgb : ℚ × ℚ × ℚ) (h : inRGB rgb) :
    inRGB (conv2ascii.saturationStep s rgb) := by
  unfold conv2ascii.saturationStep
  split_ifs
  · exact trunc_triple_mem _ _ _
  · exact h

theorem conv2ascii.grayscaleStep_mem_v1 (s : Settings) (rgb : ℚ × ℚ × ℚ) (h : inRGB rgb) :
    inRGB (conv2ascii.grayscaleStep s rgb) := by
  unfold conv2ascii.grayscaleStep
  split_ifs
  · exact trunc_triple_mem _ _ _
  · exact h

theorem conv2ascii.invertStep_mem_v1 (s : Settings) (rgb : ℚ × ℚ × ℚ) (h : inRGB rgb) :
    inRGB (conv2ascii.invertStep s rgb) := by
  unfold conv2ascii.invertStep
  split_ifs
  · exact trunc_triple_mem _ _ _
  · exact h

theorem conv2ascii.sepiaStep_mem_v1 (s : Settings) (rgb : ℚ × ℚ × ℚ) (h : inRGB rgb) :
    inRGB (conv2ascii.sepiaStep s rgb) := by
  unfold conv2ascii.sepiaStep
  split_ifs
  · exact trunc_triple_mem _ _ _
  · exact h

theorem conv2ascii.hueStep_mem_v1 (s : Settings) (rgb : ℚ × ℚ × ℚ) (h : inRGB rgb) :
    inRGB (conv2ascii.hueStep s rgb) := by
  unfold conv2ascii.hueStep
  split_ifs
  · exact conv2ascii.hslToRgb_mem_v1 _ _ _
  · exact h

theorem conv2ascii.adjustPixel_mem_v1 (s : Settings) (r g b : ℚ) (h : inRGB (r, g, b)) :
    inRGB (conv2ascii.adjustPixel s r g b) :=
  conv2ascii.hueStep_mem_v1 s _ (conv2ascii.sepiaStep_mem_v1 s _ (conv2ascii.invertStep_mem_v1 s _
    (conv2ascii.grayscaleStep_mem_v1 s _ (conv2ascii.saturationStep_mem_v1 s _
      (conv2ascii.contrastStep_mem_v1 s _ (conv2ascii.brightnessStep_mem_v1 s _ h))))))

theorem jsMod_one_mem (x : ℚ) : -1 < jsMod x 1 ∧ jsMod x 1 < 1 := by
  unfold jsMod jsTrunc
  rw [div_one]
  split_ifs with h0
  · have h1 := Int.floor_le x
    have h2 := Int.lt_floor_add_one x
    constructor <;> [linarith; linarith]
  · have h1 := Int.le_ceil x
    have h2 := Int.ceil_lt_add_one x
    constructor <;> [linarith; linarith]

theorem hue2rgb_mem (p q t0 : ℚ) (hp : 0 ≤ p) (hpq : p ≤ q) (hq : q ≤ 1)
    (ht1 : -1 < t0) (ht2 : t0 < 1) : 0 ≤ hue2rgb p q t0 ∧ hue2rgb p q t0 ≤ 1 := by
  simp only [hue2rgb]
  split_ifs <;> constructor <;> nlinarith

theorem round_mem_255 (x : ℚ) (h0 : 0 ≤ x) (h1 : x ≤ 255) :
    0 ≤ round x ∧ round x ≤ 255 := by
  rw [round_eq]
  constructor
  · exact Int.floor_nonneg.mpr (by linarith)
  · have : ⌊x + 1 / 2⌋ < 256 := Int.floor_lt.mpr (by push_cast; linarith)
    omega

theorem part008.rgbToHsl_sl_mem (r0 g0 b0 : ℚ)
    (hr : 0 ≤ r0 ∧ r0 ≤ 255) (hg : 0 ≤ g0 ∧ g0 ≤ 255) (hb : 0 ≤ b0 ∧ b0 ≤ 255) :
    (0 ≤ (part008.rgbToHsl r0 g0 b0).2.1 ∧ (part008.rgbToHsl r0 g0 b0).2.1 ≤ 100) ∧
    (0 ≤ (part008.rgbToHsl r0 g0 b0).2.2 ∧ (part008.rgbToHsl r0 g0 b0).2.2 ≤ 100) := by
  have hr1 : 0 ≤ r0 / 255 := div_nonneg hr.1 (by norm_num)
  have hr2 : r0 / 255 ≤ 1 := by
    rw [div_le_one (by norm_num : (0:ℚ) < 255)]
    exact hr.2
  have hg1 : 0 ≤ g0 / 255 := div_nonneg hg.1 (by norm_num)
  have hg2 : g0 / 255 ≤ 1 := by
    rw [div_le_one (by norm_num : (0:ℚ) < 255)]
    exact hg.2
  have hb1 : 0 ≤ b0 / 255 := div_nonneg hb.1 (by norm_num)
  have hb2 : b0 / 255 ≤ 1 := by
    rw [div_le_one (by norm_num : (0:ℚ) < 255)]
    exact hb.2
  simp only [part008.rgbToHsl]
  set r := r0 / 255 with hrd
  set g := g0 / 255 with hgd
  set b := b0 / 255 with hbd
  set maxc := max r (max g b) with hmaxc
  set minc := min r (min g b) with hminc
  have hmax1 : maxc ≤ 1 := max_le hr2 (max_le hg2 hb2)
  have hmin0 : 0 ≤ minc := le_min hr1 (le_min hg1 hb1)
  have hmm : minc ≤ maxc := le_trans (min_le_left _ _) (le_max_left _ _)
  clear hrd hgd hbd hmaxc hminc hr hg hb hr1 hr2 hg1 hg2 hb1 hb2
  by_cases hac : maxc = minc
  · rw [if_pos hac]
    dsimp only
    exact ⟨⟨le_refl 0, by norm_num⟩, ⟨by linarith, by linarith⟩⟩
  · rw [if_neg hac]
    dsimp only
    have hlt : minc < maxc := lt_of_le_of_ne hmm fun e => hac e.symm
    by_cases hl : (maxc + minc) / 2 > 1 / 2
    · rw [if_pos hl]
      have hden : 0 < 2 - maxc - minc := by linarith
      have hs1 : (maxc - minc) / (2 - maxc - minc) ≤ 1 :=
        div_le_one_of_le₀ (by linarith) (le_of_lt hden)
      have hs0 : 0 ≤ (maxc - minc) / (2 - maxc - minc) :=
        div_nonneg (by linarith) (le_of_lt hden)
      refine ⟨⟨by linarith, by linarith⟩, ⟨by linarith, by linarith⟩⟩
    · rw [if_neg hl]
      have hden : 0 < maxc + minc := by linarith
      have hs1 : (maxc - minc) / (maxc + minc) ≤ 1 :=
        div_le_one_of_le₀ (by linarith) (le_of_lt hden)
      have hs0 : 0 ≤ (maxc - minc) / (maxc + minc) :=
        div_nonneg (by linarith) (le_of_lt hden)
      refine ⟨⟨by linarith, by linarith⟩, ⟨by linarith, by linarith⟩⟩

theorem part008.hslToRgb_mem_v2 (h0 s0 l0 : ℚ) (hs0 : 0 ≤ s0) (hs1 : s0 ≤ 100)
    (hl0 : 0 ≤ l0) (hl1 : l0 ≤ 100) :
    (0 ≤ (part008.hslToRgb h0 s0 l0).1 ∧ (part008.hslToRgb h0 s0 l0).1 ≤ 255) ∧
    (0 ≤ (part008.hslToRgb h0 s0 l0).2.1 ∧ (part008.hslToRgb h0 s0 l0).2.1 ≤ 255) ∧
    (0 ≤ (part008.hslToRgb h0 s0 l0).2.2 ∧ (part008.hslToRgb h0 s0 l0).2.2 ≤ 255) := by
  have hsa : 0 ≤ s0 / 100 := div_nonneg hs0 (by norm_num)
  have hsb : s0 / 100 ≤ 1 := by
    rw [div_le_one (by norm_num : (0:ℚ) < 100)]
    exact hs1
  have hla : 0 ≤ l0 / 100 := div_nonneg hl0 (by norm_num)
  have hlb : l0 / 100 ≤ 1 := by
    rw [div_le_one (by norm_num : (0:ℚ) < 100)]
    exact hl1
  simp only [part008.hslToRgb]
  set s := s0 / 100 with hsd
  set l := l0 / 100 with hld
  clear hsd hld hs0 hs1 hl0 hl1
  by_cases hz : s = 0
  · rw [if_pos hz]
    dsimp only
    have hb1 : 0 ≤ l * 255 := by linarith
    have hb2 : l * 255 ≤ 255 := by linarith
    exact ⟨round_mem_255 _ hb1 hb2, round_mem_255 _ hb1 hb2, round_mem_255 _ hb1 hb2⟩
  · rw [if_neg hz]
    dsimp only
    set q := if l < 1 / 2 then l * (1 + s) else l + s - l * s with hq
    have hq1 : q ≤ 1 := by
      rw [hq]
      split_ifs with hcase <;> nlinarith
    have hql : l ≤ q := by
      rw [hq]
      split_ifs with hcase <;> nlinarith
    have hp0 : 0 ≤ 2 * l - q := by
      rw [hq]
      split_ifs with hcase <;> nlinarith
    have hpq : 2 * l - q ≤ q := by linarith
    clear_value q
    refine ⟨?_, ?_, ?_⟩ <;>
    · obtain ⟨ha, hb⟩ := hue2rgb_mem (2 * l - q) q _ hp0 hpq hq1
        (jsMod_one_mem _).1 (jsMod_one_mem _).2
      exact round_mem_255 _ (by nlinarith) (by nlinarith)

theorem part008.brightnessStep_mem_v2 (s : Settings) (rgb : ℚ × ℚ × ℚ) :
    inRGB (part008.brightnessStep s rgb) := trunc_triple_mem _ _ _

theorem part008.contrastStep_mem_v2 (s : Settings) (rgb : ℚ × ℚ × ℚ) :
    inRGB (part008.contrastStep s rgb) := trunc_triple_mem _ _ _

theorem part008.saturationStep_mem_v2 (s : Settings) (rgb : ℚ × ℚ × ℚ) :
    inRGB (part008.saturationStep s rgb) := trunc_triple_mem _ _ _

theorem part008.grayscaleStep_mem_v2 (s : Settings) (rgb : ℚ × ℚ × ℚ) (h : inRGB rgb) :
    inRGB (part008.grayscaleStep s rgb) := by
  unfold part008.grayscaleStep
  split_ifs
  · exact trunc_triple_mem _ _ _
  · exact h

theorem part008.invertStep_mem_v2 (s : Settings) (rgb : ℚ × ℚ × ℚ) (h : inRGB rgb) :
    inRGB (part008.invertStep s rgb) := by
  unfold part008.invertStep
  split_ifs
  · exact trunc_triple_mem _ _ _
  · exact h

theorem part008.sepiaStep_mem_v2 (s : Settings) (rgb : ℚ × ℚ × ℚ) (h : inRGB rgb) :
    inRGB (part008.sepiaStep s rgb) := by
  unfold part008.sepiaStep
  split_ifs
  · exact trunc_triple_mem _ _ _
  · exact h

theorem part008.hueStep_mem_v2 (s : Settings) (rgb : ℚ × ℚ × ℚ) (h : inRGB rgb) :
    inRGB (part008.hueStep s rgb) := by
  obtain ⟨h1, h2, h3, h4, h5, h6⟩ := h
  have key : ∀ hrot : ℚ, inRGB
      (((part008.hslToRgb hrot (part008.rgbToHsl rgb.1 rgb.2.1 rgb.2.2).2.1
          (part008.rgbToHsl rgb.1 rgb.2.1 rgb.2.2).2.2).1 : ℚ),
       ((part008.hslToRgb hrot (part008.rgbToHsl rgb.1 rgb.2.1 rgb.2.2).2.1
          (part008.rgbToHsl rgb.1 rgb.2.1 rgb.2.2).2.2).2.1 : ℚ),
       ((part008.hslToRgb hrot (part008.rgbToHsl rgb.1 rgb.2.1 rgb.2.2).2.1
          (part008.rgbToHsl rgb.1 rgb.2.1 rgb.2.2).2.2).2.2 : ℚ)) := by
    intro hrot
    obtain ⟨hs, hl⟩ := part008.rgbToHsl_sl_mem rgb.1 rgb.2.1 rgb.2.2 ⟨h1, h2⟩ ⟨h3, h4⟩ ⟨h5, h6⟩
    obtain ⟨c1, c2, c3⟩ := part008.hslToRgb_mem_v2 hrot
      (part008.rgbToHsl rgb.1 rgb.2.1 rgb.2.2).2.1
      (part008.rgbToHsl rgb.1 rgb.2.1 rgb.2.2).2.2 hs.1 hs.2 hl.1 hl.2
    refine ⟨?_, ?_, ?_, ?_, ?_, ?_⟩ <;> dsimp only
    · exact_mod_cast c1.1
    · exact_mod_cast c1.2
    · exact_mod_cast c2.1
    · exact_mod_cast c2.2
    · exact_mod_cast c3.1
    · exact_mod_cast c3.2
  simp only [part008.hueStep]
  split_ifs with hc hneg
  · exact key _
  · exact key _
  · exact ⟨h1, h2, h3, h4, h5, h6⟩

theorem part008.adjustPixel_mem_v2 (s : Settings) (r g b : ℚ) :
    inRGB (part008.adjustPixel s r g b) :=
  part008.sepiaStep_mem_v2 s _ (part008.hueStep_mem_v2 s _ (part008.invertStep_mem_v2 s _
    (part008.grayscaleStep_mem_v2 s _ (part008.saturationStep_mem_v2 s _))))

/-- Claim C7: for every settings record (including extreme values) and
every input channel triple within 0..255, both adjustment variants produce
channels within 0..255; every block that runs ends in the clamp
truncate(v) = min(255, max(0, v)), and the part_008 hue block, which lacks
the clamp, is proven to stay in range as well. -/
theorem claim_C7_channels_clamped (s : Settings) (r g b : ℚ) (h : inRGB (r, g, b)) :
    inRGB (conv2ascii.adjustPixel s r g b) ∧ inRGB (part008.adjustPixel s r g b) :=
  ⟨conv2ascii.adjustPixel_mem_v1 s r g b h, part008.adjustPixel_mem_v2 s r g b⟩

/-- Witness for claim C7: extreme brightness and contrast on a near-white
pixel. -/
theorem claim_C7_witness :
    inRGB (conv2ascii.adjustPixel { brightness := 200, contrast := 200 } 250 250 250) ∧
    inRGB (part008.adjustPixel { brightness := 200, contrast := 200 } 250 250 250) :=
  claim_C7_channels_clamped { brightness := 200, contrast := 200 } 250 250 250
    (by norm_num [inRGB])

theorem hue2rgb_eval_lt16 (p q t : ℚ) (h0 : 0 ≤ t) (h1 : t < 1/6) :
    hue2rgb p q t = p + (q - p) * 6 * t := by
  simp only [hue2rgb]
  split_ifs <;> first | rfl | linarith

theorem hue2rgb_eval_lt12 (p q t : ℚ) (h0 : 1/6 ≤ t) (h1 : t < 1/2) :
    hue2rgb p q t = q := by
  simp only [hue2rgb]
  split_ifs <;> first | rfl | linarith

theorem hue2rgb_eval_lt23 (p q t : ℚ) (h0 : 1/2 ≤ t) (h1 : t < 2/3) :
    hue2rgb p q t = p + (q - p) * (2/3 - t) * 6 := by
  simp only [hue2rgb]
  split_ifs <;> first | rfl | linarith

theorem hue2rgb_eval_ge23 (p q t : ℚ) (h0 : 2/3 ≤ t) (h1 : t ≤ 1) :
    hue2rgb p q t = p := by
  simp only [hue2rgb]
  split_ifs <;> first | rfl | linarith

set_option maxHeartbeats 2000000 in
theorem hue2rgb_shift_neg (p q t : ℚ) (h0 : -1 ≤ t) (h1 : t < 0) :
    hue2rgb p q t = hue2rgb p q (t + 1) := by
  simp only [hue2rgb]
  split_ifs <;> linarith

set_option maxHeartbeats 2000000 in
theorem hue2rgb_shift_gt1 (p q t : ℚ) (h0 : 1 < t) (h1 : t ≤ 2) :
    hue2rgb p q t = hue2rgb p q (t - 1) := by
  simp only [hue2rgb]
  split_ifs <;> linarith

theorem hue2rgb_sector1 (r g b : ℚ) (hbg : b ≤ g) (hgr : g ≤ r) (hbr : b < r) :
    hue2rgb b r ((g - b) / (r - b) / 6 + 1 / 3) = r ∧
    hue2rgb b r ((g - b) / (r - b) / 6) = g ∧
    hue2rgb b r ((g - b) / (r - b) / 6 - 1 / 3) = b := by
  have hd : (0 : ℚ) < r - b := by linarith
  have hd' : r - b ≠ 0 := ne_of_gt hd
  set x := (g - b) / (r - b) with hx
  have hx0 : 0 ≤ x := div_nonneg (by linarith) (le_of_lt hd)
  have hx1 : x ≤ 1 := div_le_one_of_le₀ (by linarith) (le_of_lt hd)
  refine ⟨?_, ?_, ?_⟩
  · by_cases hc : x < 1
    · rw [hue2rgb_eval_lt12 _ _ _ (by linarith) (by linarith)]
    · have hx2 : x = 1 := le_antisymm hx1 (not_lt.mp hc)
      rw [hue2rgb_eval_lt23 _ _ _ (by linarith) (by linarith), hx2]
      ring
  · by_cases hc : x < 1
    · rw [hue2rgb_eval_lt16 _ _ _ (by linarith) (by linarith), hx]
      field_simp
    · have hx2 : x = 1 := le_antisymm hx1 (not_lt.mp hc)
      have h' : (g - b) / (r - b) = 1 := by
        rw [← hx]
        exact hx2
      rw [div_eq_iff hd'] at h'
      rw [hue2rgb_eval_lt12 _ _ _ (by linarith) (by linarith)]
      linarith
  · rw [hue2rgb_shift_neg _ _ _ (by linarith) (by linarith),
      hue2rgb_eval_ge23 _ _ _ (by linarith) (by linarith)]

theorem hue2rgb_sector2 (r g b : ℚ) (hgb : g < b) (hbr : b ≤ r) (_hgr : g < r) :
    hue2rgb g r (((g - b) / (r - g) + 6) / 6 + 1 / 3) = r ∧
    hue2rgb g r (((g - b) / (r - g) + 6) / 6) = g ∧
    hue2rgb g r (((g - b) / (r - g) + 6) / 6 - 1 / 3) = b := by
  have hd : (0 : ℚ) < r - g := by linarith
  have hd' : r - g ≠ 0 := ne_of_gt hd
  set x := (g - b) / (r - g) with hx
  have hx0 : -1 ≤ x := by
    rw [hx, le_div_iff₀ hd]
    linarith
  have hx1 : x < 0 := div_neg_of_neg_of_pos (by linarith) hd
  refine ⟨?_, ?_, ?_⟩
  · rw [hue2rgb_shift_gt1 _ _ _ (by linarith) (by linarith)]
    rw [show ((x + 6) / 6 + 1 / 3 - 1 : ℚ) = x / 6 + 1 / 3 by ring]
    rw [hue2rgb_eval_lt12 _ _ _ (by linarith) (by linarith)]
  · rw [hue2rgb_eval_ge23 _ _ _ (by linarith) (by linarith)]
  · rw [show ((x + 6) / 6 - 1 / 3 : ℚ) = x / 6 + 2 / 3 by ring]
    rw [hue2rgb_eval_lt23 _ _ _ (by linarith) (by linarith), hx]
    field_simp
    ring

theorem hue2rgb_sector3a (r g b : ℚ) (hrg : r ≤ g) (hbr : b ≤ r) (hbg : b < g) :
    hue2rgb b g (((b - r) / (g - b) + 2) / 6 + 1 / 3) = r ∧
    hue2rgb b g (((b - r) / (g - b) + 2) / 6) = g ∧
    hue2rgb b g (((b - r) / (g - b) + 2) / 6 - 1 / 3) = b := by
  have hd : (0 : ℚ) < g - b := by linarith
  have hd' : g - b ≠ 0 := ne_of_gt hd
  set x := (b - r) / (g - b) with hx
  have hx0 : -1 ≤ x := by
    rw [hx, le_div_iff₀ hd]
    linarith
  have hx1 : x ≤ 0 := div_nonpos_of_nonpos_of_nonneg (by linarith) (le_of_lt hd)
  refine ⟨?_, ?_, ?_⟩
  · by_cases hc : x < 0
    · rw [show ((x + 2) / 6 + 1 / 3 : ℚ) = x / 6 + 2 / 3 by ring]
      rw [hue2rgb_eval_lt23 _ _ _ (by linarith) (by linarith), hx]
      field_simp
      ring
    · have hx2 : x = 0 := le_antisymm hx1 (not_lt.mp hc)
      have h' : (b - r) / (g - b) = 0 := by
        rw [← hx]
        exact hx2
      rw [div_eq_zero_iff] at h'
      have hbr' : b = r := by
        rcases h' with h' | h'
        · linarith
        · exact absurd h' hd'
      rw [show ((x + 2) / 6 + 1 / 3 : ℚ) = x / 6 + 2 / 3 by ring, hx2]
      rw [hue2rgb_eval_ge23 _ _ _ (by norm_num) (by norm_num)]
      exact hbr'
  · rw [show ((x + 2) / 6 : ℚ) = x / 6 + 1 / 3 by ring]
    rw [hue2rgb_eval_lt12 _ _ _ (by linarith) (by linarith)]
  · by_cases hc : x < 0
    · rw [show ((x + 2) / 6 - 1 / 3 : ℚ) = x / 6 by ring]
      rw [hue2rgb_shift_neg _ _ _ (by linarith) (by linarith)]
      rw [hue2rgb_eval_ge23 _ _ _ (by linarith) (by linarith)]
    · have hx2 : x = 0 := le_antisymm hx1 (not_lt.mp hc)
      rw [show ((x + 2) / 6 - 1 / 3 : ℚ) = x / 6 by ring, hx2]
      rw [hue2rgb_eval_lt16 _ _ _ (by norm_num) (by norm_num)]
      ring

theorem hue2rgb_sector3b (r g b : ℚ) (hrg : r < g) (_hbg : b ≤ g) (hrb : r < b) :
    hue2rgb r g (((b - r) / (g - r) + 2) / 6 + 1 / 3) = r ∧
    hue2rgb r g (((b - r) / (g - r) + 2) / 6) = g ∧
    hue2rgb r g (((b - r) / (g - r) + 2) / 6 - 1 / 3) = b := by
  have hd : (0 : ℚ) < g - r := by linarith
  have hd' : g - r ≠ 0 := ne_of_gt hd
  set x := (b - r) / (g - r) with hx
  have hx0 : 0 < x := div_pos (by linarith) hd
  have hx1 : x ≤ 1 := div_le_one_of_le₀ (by linarith) (le_of_lt hd)
  refine ⟨?_, ?_, ?_⟩
  · rw [show ((x + 2) / 6 + 1 / 3 : ℚ) = x / 6 + 2 / 3 by ring]
    rw [hue2rgb_eval_ge23 _ _ _ (by linarith) (by linarith)]
  · by_cases hc : x < 1
    · rw [show ((x + 2) / 6 : ℚ) = x / 6 + 1 / 3 by ring]
      rw [hue2rgb_eval_lt12 _ _ _ (by linarith) (by linarith)]
    · have hx2 : x = 1 := le_antisymm hx1 (not_lt.mp hc)
      rw [show ((x + 2) / 6 : ℚ) = x / 6 + 1 / 3 by ring, hx2]
      rw [hue2rgb_eval_lt23 _ _ _ (by norm_num) (by norm_num)]
      ring
  · by_cases hc : x < 1
    · rw [show ((x + 2) / 6 - 1 / 3 : ℚ) = x / 6 by ring]
      rw [hue2rgb_eval_lt16 _ _ _ (by linarith) (by linarith), hx]
      field_simp
    · have hx2 : x = 1 := le_antisymm hx1 (not_lt.mp hc)
      have h' : (b - r) / (g - r) = 1 := by
        rw [← hx]
        exact hx2
      rw [div_eq_iff hd'] at h'
      rw [show ((x + 2) / 6 - 1 / 3 : ℚ) = x / 6 by ring, hx2]
      rw [hue2rgb_eval_lt12 _ _ _ (by norm_num) (by norm_num)]
      linarith

theorem hue2rgb_sector4a (r g b : ℚ) (hgr : g ≤ r) (hrb : r < b) (_hgb : g < b) :
    hue2rgb g b (((r - g) / (b - g) + 4) / 6 + 1 / 3) = r ∧
    hue2rgb g b (((r - g) / (b - g) + 4) / 6) = g ∧
    hue2rgb g b (((r - g) / (b - g) + 4) / 6 - 1 / 3) = b := by
  have hd : (0 : ℚ) < b - g := by linarith
  have hd' : b - g ≠ 0 := ne_of_gt hd
  set x := (r - g) / (b - g) with hx
  have hx0 : 0 ≤ x := div_nonneg (by linarith) (le_of_lt hd)
  have hx1 : x < 1 := by
    rw [hx, div_lt_one hd]
    linarith
  refine ⟨?_, ?_, ?_⟩
  · by_cases hc : 0 < x
    · rw [show ((x + 4) / 6 + 1 / 3 : ℚ) = x / 6 + 1 by ring]
      rw [hue2rgb_shift_gt1 _ _ _ (by linarith) (by linarith)]
      rw [show ((x / 6 + 1 - 1 : ℚ)) = x / 6 by ring]
      rw [hue2rgb_eval_lt16 _ _ _ (by linarith) (by linarith), hx]
      field_simp
    · have hx2 : x = 0 := le_antisymm (not_lt.mp hc) hx0
      have h' : (r - g) / (b - g) = 0 := by
        rw [← hx]
        exact hx2
      rw [div_eq_zero_iff] at h'
      have hgr' : r = g := by
        rcases h' with h' | h'
        · linarith
        · exact absurd h' hd'
      rw [show ((x + 4) / 6 + 1 / 3 : ℚ) = x / 6 + 1 by ring, hx2]
      rw [hue2rgb_eval_ge23 _ _ _ (by norm_num) (by norm_num)]
      exact hgr'.symm
  · rw [show ((x + 4) / 6 : ℚ) = x / 6 + 2 / 3 by ring]
    rw [hue2rgb_eval_ge23 _ _ _ (by linarith) (by linarith)]
  · rw [show ((x + 4) / 6 - 1 / 3 : ℚ) = x / 6 + 1 / 3 by ring]
    rw [hue2rgb_eval_lt12 _ _ _ (by linarith) (by linarith)]

theorem hue2rgb_sector4b (r g b : ℚ) (hrg : r < g) (hgb : g < b) (_hrb : r < b) :
    hue2rgb r b (((r - g) / (b - r) + 4) / 6 + 1 / 3) = r ∧
    hue2rgb r b (((r - g) / (b - r) + 4) / 6) = g ∧
    hue2rgb r b (((r - g) / (b - r) + 4) / 6 - 1 / 3) = b := by
  have hd : (0 : ℚ) < b - r := by linarith
  have hd' : b - r ≠ 0 := ne_of_gt hd
  set x := (r - g) / (b - r) with hx
  have hx0 : -1 < x := by
    rw [hx, lt_div_iff₀ hd]
    linarith
  have hx1 : x < 0 := div_neg_of_neg_of_pos (by linarith) hd
  refine ⟨?_, ?_, ?_⟩
  · rw [show ((x + 4) / 6 + 1 / 3 : ℚ) = x / 6 + 1 by ring]
    rw [hue2rgb_eval_ge23 _ _ _ (by linarith) (by linarith)]
  · rw [show ((x + 4) / 6 : ℚ) = x / 6 + 2 / 3 by ring]
    rw [hue2rgb_eval_lt23 _ _ _ (by linarith) (by linarith), hx]
    field_simp
    ring
  · rw [show ((x + 4) / 6 - 1 / 3 : ℚ) = x / 6 + 1 / 3 by ring]
    rw [hue2rgb_eval_lt12 _ _ _ (by linarith) (by linarith)]

theorem hue2rgb_reconstruct (r g b M m hsix : ℚ)
    (hM : M = max r (max g b)) (hm : m = min r (min g b)) (hlt : m < M)
    (hh : hsix = if M = r then (g - b) / (M - m) + (if g < b then 6 else 0)
          else if M = g then (b - r) / (M - m) + 2
          else (r - g) / (M - m) + 4) :
    hue2rgb m M (hsix / 6 + 1 / 3) = r ∧ hue2rgb m M (hsix / 6) = g ∧
    hue2rgb m M (hsix / 6 - 1 / 3) = b := by
  have hrM : r ≤ M := by
    rw [hM]
    exact le_max_left _ _
  have hgM : g ≤ M := by
    rw [hM]
    exact le_trans (le_max_left g b) (le_max_right _ _)
  have hbM : b ≤ M := by
    rw [hM]
    exact le_trans (le_max_right g b) (le_max_right _ _)
  have hmr : m ≤ r := by
    rw [hm]
    exact min_le_left _ _
  have hmg : m ≤ g := by
    rw [hm]
    exact le_trans (min_le_right r (min g b)) (min_le_left g b)
  have hmb : m ≤ b := by
    rw [hm]
    exact le_trans (min_le_right r (min g b)) (min_le_right g b)
  by_cases h1 : M = r
  · by_cases h2 : g < b
    · have hbr : b ≤ r := by
        rw [← h1]
        exact hbM
      have hgr : g < r := lt_of_lt_of_le h2 hbr
      have hm' : m = g := by
        rw [hm, min_eq_left (le_of_lt h2), min_eq_right (le_of_lt hgr)]
      rw [hh, if_pos h1, if_pos h2, h1, hm']
      exact hue2rgb_sector2 r g b h2 hbr hgr
    · have hbg : b ≤ g := not_lt.mp h2
      have hgr : g ≤ r := by
        rw [← h1]
        exact hgM
      have hm' : m = b := by
        rw [hm, min_eq_right hbg, min_eq_right (le_trans hbg hgr)]
      have hbr : b < r := by
        rw [hm', h1] at hlt
        exact hlt
      rw [hh, if_pos h1, if_neg h2, add_zero, h1, hm']
      exact hue2rgb_sector1 r g b hbg hgr hbr
  · by_cases h3 : M = g
    · have hrg : r ≤ g := by
        rw [← h3]
        exact hrM
      have hbg : b ≤ g := by
        rw [← h3]
        exact hbM
      by_cases h4 : b ≤ r
      · have hm' : m = b := by
          rw [hm, min_eq_right hbg, min_eq_right h4]
        have hbg' : b < g := by
          rw [hm', h3] at hlt
          exact hlt
        rw [hh, if_neg h1, if_pos h3, h3, hm']
        exact hue2rgb_sector3a r g b hrg h4 hbg'
      · have hrb : r < b := not_le.mp h4
        have hm' : m = r := by
          rw [hm, min_eq_left (le_min hrg (le_of_lt hrb))]
        have hrg' : r < g := by
          rw [hm', h3] at hlt
          exact hlt
        rw [hh, if_neg h1, if_pos h3, h3, hm']
        exact hue2rgb_sector3b r g b hrg' hbg hrb
    · have h5 : M = b := by
        rcases max_choice r (max g b) with h | h
        · exact absurd (hM.trans h) h1
        · rcases max_choice g b with h' | h'
          · exact absurd (hM.trans (h.trans h')) h3
          · exact hM.trans (h.trans h')
      have hrb : r < b := lt_of_le_of_ne (by rw [← h5]; exact hrM)
        (fun e => h1 (h5.trans e.symm))
      have hgb : g < b := lt_of_le_of_ne (by rw [← h5]; exact hgM)
        (fun e => h3 (h5.trans e.symm))
      by_cases h6 : g ≤ r
      · have hm' : m = g := by
          rw [hm, min_eq_left (le_of_lt hgb), min_eq_right h6]
        rw [hh, if_neg h1, if_neg h3, h5, hm']
        exact hue2rgb_sector4a r g b h6 hrb hgb
      · have hrg : r < g := not_le.mp h6
        have hm' : m = r := by
          rw [hm, min_eq_left (le_min (le_of_lt hrg) (le_of_lt hrb))]
        rw [hh, if_neg h1, if_neg h3, h5, hm']
        exact hue2rgb_sector4b r g b hrg hgb hrb

theorem q_eq_max (M m : ℚ) (h0 : 0 ≤ m) (hlt : m < M) (h1 : M ≤ 1) :
    (if (M + m) / 2 < 1 / 2 then
      (M + m) / 2 * (1 + (if (M + m) / 2 > 1 / 2 then (M - m) / (2 - M - m)
        else (M - m) / (M + m)))
     else (M + m) / 2 + (if (M + m) / 2 > 1 / 2 then (M - m) / (2 - M - m)
        else (M - m) / (M + m)) -
      (M + m) / 2 * (if (M + m) / 2 > 1 / 2 then (M - m) / (2 - M - m)
        else (M - m) / (M + m))) = M := by
  have hden1 : 0 < M + m := by linarith
  have hden2 : 0 < 2 - M - m := by linarith
  by_cases ha : (M + m) / 2 < 1 / 2
  · rw [if_pos ha, if_neg (by linarith : ¬((M + m) / 2 > 1 / 2))]
    field_simp
    ring
  · rw [if_neg ha]
    by_cases hb : (M + m) / 2 > 1 / 2
    · rw [if_pos hb]
      field_simp
      ring
    · rw [if_neg hb]
      have hsum : M + m = 1 := by linarith
      rw [hsum]
      norm_num
      linarith

theorem s_if_pos (M m : ℚ) (h0 : 0 ≤ m) (hlt : m < M) (h1 : M ≤ 1) :
    0 < (if (M + m) / 2 > 1 / 2 then (M - m) / (2 - M - m) else (M - m) / (M + m)) := by
  split_ifs with h
  · exact div_pos (by linarith) (by linarith)
  · exact div_pos (by linarith) (by linarith)

theorem hsix_mem (r g b M m hsix : ℚ)
    (hM : M = max r (max g b)) (hm : m = min r (min g b)) (hlt : m < M)
    (hh : hsix = if M = r then (g - b) / (M - m) + (if g < b then 6 else 0)
          else if M = g then (b - r) / (M - m) + 2
          else (r - g) / (M - m) + 4) :
    0 ≤ hsix ∧ hsix < 6 := by
  have hrM : r ≤ M := by
    rw [hM]
    exact le_max_left _ _
  have hgM : g ≤ M := by
    rw [hM]
    exact le_trans (le_max_left g b) (le_max_right _ _)
  have hbM : b ≤ M := by
    rw [hM]
    exact le_trans (le_max_right g b) (le_max_right _ _)
  have hmr : m ≤ r := by
    rw [hm]
    exact min_le_left _ _
  have hmg : m ≤ g := by
    rw [hm]
    exact le_trans (min_le_right r (min g b)) (min_le_left g b)
  have hmb : m ≤ b := by
    rw [hm]
    exact le_trans (min_le_right r (min g b)) (min_le_right g b)
  have hd : (0 : ℚ) < M - m := by linarith
  rw [hh]
  split_ifs with h1 h2 h3
  · have hx1 : (g - b) / (M - m) < 0 := div_neg_of_neg_of_pos (by linarith) hd
    have hx0 : -1 ≤ (g - b) / (M - m) := by
      rw [le_div_iff₀ hd]
      linarith
    constructor <;> linarith
  · have hx0 : 0 ≤ (g - b) / (M - m) := div_nonneg (by linarith) (le_of_lt hd)
    have hx1 : (g - b) / (M - m) ≤ 1 := div_le_one_of_le₀ (by linarith) (le_of_lt hd)
    constructor <;> linarith
  · have hx0 : -1 ≤ (b - r) / (M - m) := by
      rw [le_div_iff₀ hd]
      linarith
    have hx1 : (b - r) / (M - m) ≤ 1 := div_le_one_of_le₀ (by linarith) (le_of_lt hd)
    constructor <;> linarith
  · have hx0 : -1 ≤ (r - g) / (M - m) := by
      rw [le_div_iff₀ hd]
      linarith
    have hx1 : (r - g) / (M - m) ≤ 1 := div_le_one_of_le₀ (by linarith) (le_of_lt hd)
    constructor <;> linarith

theorem hue2rgb_jsMod (p q t0 : ℚ) (h1 : -1 < t0) (h2 : t0 ≤ 2) :
    hue2rgb p q (jsMod t0 1) = hue2rgb p q t0 := by
  have hmod : jsMod t0 1 = t0 - jsTrunc t0 := by
    unfold jsMod
    rw [div_one, one_mul]
  by_cases hneg : t0 < 0
  · have htr : jsTrunc t0 = 0 := by
      unfold jsTrunc
      rw [if_neg (not_le.mpr hneg)]
      exact Int.ceil_eq_zero_iff.mpr ⟨h1, le_of_lt hneg⟩
    rw [hmod, htr]
    norm_num
  · have h0 : 0 ≤ t0 := not_lt.mp hneg
    by_cases hlt1 : t0 < 1
    · have htr : jsTrunc t0 = 0 := by
        unfold jsTrunc
        rw [if_pos h0]
        exact Int.floor_eq_zero_iff.mpr ⟨h0, hlt1⟩
      rw [hmod, htr]
      norm_num
    · have hge1 : 1 ≤ t0 := not_lt.mp hlt1
      by_cases ht2 : t0 < 2
      · have htr : jsTrunc t0 = 1 := by
          unfold jsTrunc
          rw [if_pos h0]
          rw [Int.floor_eq_iff]
          push_cast
          constructor <;> linarith
        rw [hmod, htr]
        rcases eq_or_lt_of_le hge1 with heq | hgt
        · rw [← heq]
          rw [hue2rgb_eval_lt16 _ _ _ (by norm_num) (by norm_num),
            hue2rgb_eval_ge23 _ _ _ (by norm_num) (by norm_num)]
          ring
        · rw [hue2rgb_shift_gt1 p q t0 hgt (by linarith)]
          norm_num
      · have ht2' : t0 = 2 := le_antisymm h2 (not_lt.mp ht2)
        have htr : jsTrunc t0 = 2 := by
          unfold jsTrunc
          rw [if_pos h0, ht2']
          norm_num
        rw [hmod, htr, ht2']
        rw [hue2rgb_shift_gt1 p q 2 (by norm_num) (by norm_num)]
        rw [hue2rgb_eval_lt16 _ _ _ (by norm_num) (by norm_num),
          hue2rgb_eval_ge23 _ _ _ (by norm_num) (by norm_num)]
        ring

theorem conv2ascii.hsl_roundtrip_v1 (R G B : ℚ)
    (hR0 : 0 ≤ R) (hR1 : R ≤ 255) (hG0 : 0 ≤ G) (hG1 : G ≤ 255)
    (hB0 : 0 ≤ B) (hB1 : B ≤ 255) :
    (fun t : ℚ × ℚ × ℚ => conv2ascii.hslToRgb t.1 t.2.1 t.2.2)
      (conv2ascii.rgbToHsl R G B) = (R, G, B) := by
  have hr0 : 0 ≤ R / 255 := div_nonneg hR0 (by norm_num)
  have hr1 : R / 255 ≤ 1 := by
    rw [div_le_one (by norm_num : (0:ℚ) < 255)]
    exact hR1
  have hg0 : 0 ≤ G / 255 := div_nonneg hG0 (by norm_num)
  have hg1 : G / 255 ≤ 1 := by
    rw [div_le_one (by norm_num : (0:ℚ) < 255)]
    exact hG1
  have hb0 : 0 ≤ B / 255 := div_nonneg hB0 (by norm_num)
  have hb1 : B / 255 ≤ 1 := by
    rw [div_le_one (by norm_num : (0:ℚ) < 255)]
    exact hB1
  simp only [conv2ascii.rgbToHsl]
  set r := R / 255 with hrd
  set g := G / 255 with hgd
  set b := B / 255 with hbd
  set M := max r (max g b) with hM
  set m := min r (min g b) with hm
  have hRfin : truncate (r * 255) = R := by
    rw [hrd, div_mul_cancel₀ _ (by norm_num : (255:ℚ) ≠ 0)]
    exact truncate_eq_self hR0 hR1
  have hGfin : truncate (g * 255) = G := by
    rw [hgd, div_mul_cancel₀ _ (by norm_num : (255:ℚ) ≠ 0)]
    exact truncate_eq_self hG0 hG1
  have hBfin : truncate (b * 255) = B := by
    rw [hbd, div_mul_cancel₀ _ (by norm_num : (255:ℚ) ≠ 0)]
    exact truncate_eq_self hB0 hB1
  have hmax1 : M ≤ 1 := max_le hr1 (max_le hg1 hb1)
  have hmin0 : 0 ≤ m := le_min hr0 (le_min hg0 hb0)
  have hmm : m ≤ M := le_trans (min_le_left _ _) (le_max_left _ _)
  have hrM : r ≤ M := by
    rw [hM]
    exact le_max_left _ _
  have hgM : g ≤ M := by
    rw [hM]
    exact le_trans (le_max_left g b) (le_max_right _ _)
  have hbM : b ≤ M := by
    rw [hM]
    exact le_trans (le_max_right g b) (le_max_right _ _)
  have hmr : m ≤ r := by
    rw [hm]
    exact min_le_left _ _
  have hmg : m ≤ g := by
    rw [hm]
    exact le_trans (min_le_right r (min g b)) (min_le_left g b)
  have hmb : m ≤ b := by
    rw [hm]
    exact le_trans (min_le_right r (min g b)) (min_le_right g b)
  by_cases hac : M = m
  · rw [if_pos hac]
    dsimp only
    have e1 : r = m := le_antisymm (hac ▸ hrM) hmr
    have e2 : g = m := le_antisymm (hac ▸ hgM) hmg
    have e3 : b = m := le_antisymm (hac ▸ hbM) hmb
    simp only [conv2ascii.hslToRgb]
    rw [if_pos trivial]
    rw [hac, show ((m + m) / 2 : ℚ) = m by ring]
    have t1 : truncate (m * 255) = R := by
      rw [← e1]
      exact hRfin
    have t2 : truncate (m * 255) = G := by
      rw [← e2]
      exact hGfin
    have t3 : truncate (m * 255) = B := by
      rw [← e3]
      exact hBfin
    simp only [Prod.mk.injEq]
    exact ⟨t1, t2, t3⟩
  · rw [if_neg hac]
    dsimp only
    have hlt : m < M := lt_of_le_of_ne hmm fun e => hac e.symm
    simp only [conv2ascii.hslToRgb]
    rw [if_neg (ne_of_gt (s_if_pos M m hmin0 hlt hmax1))]
    rw [q_eq_max M m hmin0 hlt hmax1]
    rw [show (2 * ((M + m) / 2) - M : ℚ) = m by ring]
    obtain ⟨e1, e2, e3⟩ := hue2rgb_reconstruct r g b M m _ hM hm hlt rfl
    rw [e1, e2, e3]
    simp only [Prod.mk.injEq]
    exact ⟨hRfin, hGfin, hBfin⟩

theorem part008.hsl_roundtrip_v2 (R G B : ℕ) (hR : R ≤ 255) (hG : G ≤ 255) (hB : B ≤ 255) :
    (fun t : ℚ × ℚ × ℚ => part008.hslToRgb t.1 t.2.1 t.2.2)
      (part008.rgbToHsl R G B) = ((R : ℤ), (G : ℤ), (B : ℤ)) := by
  have hR0 : (0 : ℚ) ≤ R := by positivity
  have hR1 : (R : ℚ) ≤ 255 := by exact_mod_cast hR
  have hG0 : (0 : ℚ) ≤ G := by positivity
  have hG1 : (G : ℚ) ≤ 255 := by exact_mod_cast hG
  have hB0 : (0 : ℚ) ≤ B := by positivity
  have hB1 : (B : ℚ) ≤ 255 := by exact_mod_cast hB
  have hr0 : 0 ≤ (R : ℚ) / 255 := div_nonneg hR0 (by norm_num)
  have hr1 : (R : ℚ) / 255 ≤ 1 := by
    rw [div_le_one (by norm_num : (0:ℚ) < 255)]
    exact hR1
  have hg0 : 0 ≤ (G : ℚ) / 255 := div_nonneg hG0 (by norm_num)
  have hg1 : (G : ℚ) / 255 ≤ 1 := by
    rw [div_le_one (by norm_num : (0:ℚ) < 255)]
    exact hG1
  have hb0 : 0 ≤ (B : ℚ) / 255 := div_nonneg hB0 (by norm_num)
  have hb1 : (B : ℚ) / 255 ≤ 1 := by
    rw [div_le_one (by norm_num : (0:ℚ) < 255)]
    exact hB1
  simp only [part008.rgbToHsl]
  set r := (R : ℚ) / 255 with hrd
  set g := (G : ℚ) / 255 with hgd
  set b := (B : ℚ) / 255 with hbd
  set M := max r (max g b) with hM
  set m := min r (min g b) with hm
  have hRfin : round (r * 255) = (R : ℤ) := by
    rw [hrd, div_mul_cancel₀ _ (by norm_num : (255:ℚ) ≠ 0)]
    exact round_natCast R
  have hGfin : round (g * 255) = (G : ℤ) := by
    rw [hgd, div_mul_cancel₀ _ (by norm_num : (255:ℚ) ≠ 0)]
    exact round_natCast G
  have hBfin : round (b * 255) = (B : ℤ) := by
    rw [hbd, div_mul_cancel₀ _ (by norm_num : (255:ℚ) ≠ 0)]
    exact round_natCast B
  have hmax1 : M ≤ 1 := max_le hr1 (max_le hg1 hb1)
  have hmin0 : 0 ≤ m := le_min hr0 (le_min hg0 hb0)
  have hmm : m ≤ M := le_trans (min_le_left _ _) (le_max_left _ _)
  have hrM : r ≤ M := by
    rw [hM]
    exact le_max_left _ _
  have hgM : g ≤ M := by
    rw [hM]
    exact le_trans (le_max_left g b) (le_max_right _ _)
  have hbM : b ≤ M := by
    rw [hM]
    exact le_trans (le_max_right g b) (le_max_right _ _)
  have hmr : m ≤ r := by
    rw [hm]
    exact min_le_left _ _
  have hmg : m ≤ g := by
    rw [hm]
    exact le_trans (min_le_right r (min g b)) (min_le_left g b)
  have hmb : m ≤ b := by
    rw [hm]
    exact le_trans (min_le_right r (min g b)) (min_le_right g b)
  by_cases hac : M = m
  · rw [if_pos hac]
    dsimp only
    have e1 : r = m := le_antisymm (hac ▸ hrM) hmr
    have e2 : g = m := le_antisymm (hac ▸ hgM) hmg
    have e3 : b = m := le_antisymm (hac ▸ hbM) hmb
    simp only [part008.hslToRgb]
    rw [if_pos (show ((0:ℚ) / 100) = 0 by norm_num)]
    rw [hac, show ((m + m) / 2 : ℚ) = m by ring,
      show ((m * 100) / 100 : ℚ) = m by ring]
    have t1 : round (m * 255) = (R : ℤ) := by
      rw [← e1]
      exact hRfin
    have t2 : round (m * 255) = (G : ℤ) := by
      rw [← e2]
      exact hGfin
    have t3 : round (m * 255) = (B : ℤ) := by
      rw [← e3]
      exact hBfin
    simp only [Prod.mk.injEq]
    exact ⟨t1, t2, t3⟩
  · rw [if_neg hac]
    dsimp only
    have hlt : m < M := lt_of_le_of_ne hmm fun e => hac e.symm
    simp only [part008.hslToRgb]
    simp only [mul_div_cancel_right₀ _ (show (100:ℚ) ≠ 0 by norm_num)]
    set hs6 := if M = r then (g - b) / (M - m) + (if g < b then 6 else 0)
      else if M = g then (b - r) / (M - m) + 2
      else (r - g) / (M - m) + 4 with hh6
    obtain ⟨hs60, hs66⟩ := hsix_mem r g b M m hs6 hM hm hlt hh6
    rw [if_neg (ne_of_gt (s_if_pos M m hmin0 hlt hmax1))]
    rw [show (hs6 * 60 / 360 : ℚ) = hs6 / 6 by ring]
    rw [hue2rgb_jsMod _ _ (hs6 / 6 + 1 / 3) (by linarith) (by linarith)]
    rw [hue2rgb_jsMod _ _ (hs6 / 6) (by linarith) (by linarith)]
    rw [hue2rgb_jsMod _ _ (hs6 / 6 - 1 / 3) (by linarith) (by linarith)]
    rw [q_eq_max M m hmin0 hlt hmax1]
    rw [show (2 * ((M + m) / 2) - M : ℚ) = m by ring]
    obtain ⟨e1, e2, e3⟩ := hue2rgb_reconstruct r g b M m hs6 hM hm hlt hh6
    rw [e1, e2, e3]
    simp only [Prod.mk.injEq]
    exact ⟨hRfin, hGfin, hBfin⟩

/-- Claim C8: the HSL round-trip is exact in both variants: for channels
within 0..255, hslToRgb applied to rgbToHsl output reproduces the channels
exactly — for conv2ascii.js over arbitrary rationals in range, and for
part_008 over 8-bit integer channels (Math.round of the exact value).
Exactness implies the claimed tolerance of one per channel, and covers the
achromatic case. -/
theorem claim_C8_hsl_roundtrip :
    (∀ R G B : ℚ, 0 ≤ R → R ≤ 255 → 0 ≤ G → G ≤ 255 → 0 ≤ B → B ≤ 255 →
      (fun t : ℚ × ℚ × ℚ => conv2ascii.hslToRgb t.1 t.2.1 t.2.2)
        (conv2ascii.rgbToHsl R G B) = (R, G, B)) ∧
    (∀ R G B : ℕ, R ≤ 255 → G ≤ 255 → B ≤ 255 →
      (fun t : ℚ × ℚ × ℚ => part008.hslToRgb t.1 t.2.1 t.2.2)
        (part008.rgbToHsl R G B) = ((R : ℤ), (G : ℤ), (B : ℤ))) :=
  ⟨fun R G B h1 h2 h3 h4 h5 h6 => conv2ascii.hsl_roundtrip_v1 R G B h1 h2 h3 h4 h5 h6,
   fun R G B h1 h2 h3 => part008.hsl_roundtrip_v2 R G B h1 h2 h3⟩

/-- Witness for claim C8 at the pixel (10, 200, 30). -/
theorem claim_C8_witness :
    (fun t : ℚ × ℚ × ℚ => conv2ascii.hslToRgb t.1 t.2.1 t.2.2)
      (conv2ascii.rgbToHsl 10 200 30) = (10, 200, 30) ∧
    (fun t : ℚ × ℚ × ℚ => part008.hslToRgb t.1 t.2.1 t.2.2)
      (part008.rgbToHsl ((10 : ℕ) : ℚ) ((200 : ℕ) : ℚ) ((30 : ℕ) : ℚ)) =
        (((10 : ℕ) : ℤ), ((200 : ℕ) : ℤ), ((30 : ℕ) : ℤ)) :=
  ⟨claim_C8_hsl_roundtrip.1 10 200 30 (by norm_num) (by norm_num) (by norm_num)
    (by norm_num) (by norm_num) (by norm_num),
   claim_C8_hsl_roundtrip.2 10 200 30 (by norm_num) (by norm_num) (by norm_num)⟩
